import Mathlib

/-!
# anime-picker: the random sampler and the timeline builder

A shallow embedding of `src/app.js` (`fetchRandomAnime`, `extractThemes`,
`extractDemographics`, the plot text of `displayAnime`) and `src/timeline.js`
(`fetchAnimeTimeline`, `buildTimeline`, `createTimelineCard`, `formatRelationType`), followed by
the properties proved about them.

Modelling conventions.

* The GraphQL gateway and `Math.random` are the only effects of `fetchRandomAnime`. They are
  modelled by a `World`: an oracle giving the outcome of the `k`-th request (as a function of the
  variables sent) and the `k`-th random draw. The requests issued, the number of draws and the
  outcome of every attempt (what the source writes to the console) are recorded in a `Trace`.
* `Array.prototype.sort` is a stable sort (ECMAScript 2019): for a comparator that orders the
  elements by a numeric key its result is the stable ordering by that key, computed here by
  insertion.
* Numbers are binary64 values, carried as the rationals they denote. A value of `Math.random()`
  is a double `u` with `0 ≤ u < 1`; a product of doubles is the exact product rounded to the
  nearest double, ties to even (`roundDouble`). Integers read from a response and list lengths
  are taken as the doubles of the same value, which they are up to `2^53`.
* `null`/`undefined`/absent properties are `Option.none`.
-/

namespace AnimePicker

/-! ## Data model -/

/-- A JavaScript `Error` as far as the program observes it: its `message`, and the message of the
error it was constructed around (`cause`), if any. -/
structure JsError where
  message : String
  cause : Option String
deriving DecidableEq, Repr

/-- One entry of `media.tags`. -/
structure Tag where
  name : String
  category : Option String
deriving DecidableEq, Repr

/-- The `startDate`/`endDate` object of a media record; only `year` is read by the program. -/
structure FuzzyDate where
  year : Option Int
deriving DecidableEq, Repr

/-- The `title` object of a media record. -/
structure Title where
  romaji : Option String
  english : Option String
deriving DecidableEq, Repr

/-- A media record returned by the sampling query (fields read by the modelled functions). -/
structure Anime where
  id : Int
  title : Title
  description : Option String
  startDate : Option FuzzyDate
  tags : Option (List Tag)
deriving DecidableEq, Repr

/-- The `variables` object of a sampling request. `startDate`/`endDate` are results of `parseInt`
(`none` is `NaN`). -/
structure Variables where
  startDate : Option Int
  endDate : Option Int
  page : Int
  perPage : Int
deriving DecidableEq, Repr

/-- The part of `data.Page.pageInfo` read by the sampler. -/
structure PageInfo where
  total : Int
  lastPage : Int
deriving DecidableEq, Repr

/-- The object `data.Page`. -/
structure Page where
  pageInfo : Option PageInfo
  media : Option (List Anime)
deriving DecidableEq, Repr

/-- The object `data`. -/
structure Data where
  Page : Option Page
deriving DecidableEq, Repr

/-- A parsed response body: `errors` (absent, or the array of the reported messages) and `data`. -/
structure ResponseBody where
  errors : Option (List String)
  data : Option Data
deriving DecidableEq, Repr

/-- What `await fetch(...)` followed by `await response.json()` yields: a rejection (transport or
parse error) or a parsed body. -/
inductive FetchOutcome where
  | rejected (error : JsError)
  | json (body : ResponseBody)
deriving DecidableEq, Repr

/-- The integer nearest to `y`, the even one of the two when `y` lies halfway between them. -/
def roundHalfEven (y : ℚ) : Int :=
  let f := ⌊y⌋
  let r := y - f
  if r < 1 / 2 then f else if 1 / 2 < r then f + 1 else if f % 2 = 0 then f else f + 1

/-- The binary64 value of a rational `x`: `x` rounded to the nearest multiple of the spacing of
the doubles around it, ties to the even multiple. Doubles of magnitude in `[2^e, 2^(e+1))` are
spaced `2^(e-52)` apart, and `2^(-1074)` apart below `2^(-1022)`. Overflow to `Infinity` is not
modelled. -/
def roundDouble (x : ℚ) : ℚ :=
  if x = 0 then 0
  else
    let e := max (Int.log 2 |x|) (-1022)
    let spacing : ℚ := 2 ^ (e - 52)
    roundHalfEven (x / spacing) * spacing

/-- A value of `Math.random()`: a double, at least 0 and less than 1. -/
structure UnitDraw where
  val : ℚ
  nonneg : 0 ≤ val
  lt_one : val < 1
  double : roundDouble val = val

/-- The environment of one run of the sampler. -/
structure World where
  gateway : Nat → Variables → FetchOutcome
  random : Nat → UnitDraw

/-- How one execution of the `try` block of `fetchRandomAnime` ends: by `return`, by a thrown
error (caught by the `catch` clause), or in one of the two `else` branches, which log
"Empty results on page ..." and "Invalid response, retrying...". -/
inductive TryOutcome where
  | returned (item : Option Anime)
  | threw (error : JsError)
  | emptyResults (page : Int)
  | invalidResponse
deriving DecidableEq, Repr

/-- What a run has done so far: the requests sent (oldest first), the number of random draws and
the outcome of each attempt (loop body) finished so far, oldest first. -/
structure Trace where
  requests : List Variables
  draws : Nat
  outcomes : List TryOutcome
deriving DecidableEq, Repr

/-- The trace at the start of a run. -/
def Trace.init : Trace := ⟨[], 0, []⟩

/-- Number of gateway calls made so far. -/
def Trace.calls (t : Trace) : Nat := t.requests.length

/-- Number of attempts (loop bodies) run so far. -/
def Trace.tries (t : Trace) : Nat := t.outcomes.length

/-! ## `parseInt` on a template literal -/

/-- The digits read by `parseInt`: the longest prefix of decimal digits, `none` when it is
empty. -/
def parseDigits : List Char → Option Nat → Option Nat
  | [], acc => acc
  | c :: cs, acc =>
    if c.isDigit then parseDigits cs (some (acc.getD 0 * 10 + (c.toNat - 48))) else acc

/-- JavaScript `parseInt(s)` in radix 10: leading white space, an optional sign, then the longest
prefix of digits; `none` is `NaN`. -/
def parseInt (s : String) : Option Int :=
  match s.data.dropWhile Char.isWhitespace with
  | '-' :: cs => (parseDigits cs none).map fun n => -(n : Int)
  | '+' :: cs => (parseDigits cs none).map fun n => (n : Int)
  | cs => (parseDigits cs none).map fun n => (n : Int)

/-! ## `fetchRandomAnime` -/

/-- The variables of a sampling request for the given year range and page. -/
def requestVariables (startYear endYear : Int) (page : Int) : Variables :=
  let perPage := 50
  let startDateFormatted := parseInt (toString startYear ++ "0101")
  let endDateFormatted := parseInt (toString endYear ++ "1231")
  { startDate := startDateFormatted, endDate := endDateFormatted, page := page, perPage := perPage }

/-- The error thrown for a truthy `errors` property: `new Error("API Error: " + errors[0].message)`,
or the `TypeError` of reading `message` of `undefined` when the array is empty. -/
def apiError : List String → JsError
  | [] => ⟨"Cannot read properties of undefined (reading message)", none⟩
  | first :: _ => ⟨"API Error: " ++ first, none⟩

/-- The error thrown when the count probe reports `total === 0`. -/
def noResultsError (startYear endYear : Int) : JsError :=
  ⟨"No anime found in the year range " ++ toString startYear ++ "-" ++ toString endYear, none⟩

/-- The error thrown after the loop. -/
def exhaustedError : JsError :=
  ⟨"Failed to fetch anime after multiple attempts", none⟩

/-- The page number `Math.floor(Math.random() * totalPages) + 1` of line 112, for the draw `u`:
the product is a double product. -/
def randomPage (u : ℚ) (totalPages : Int) : Int := ⌊roundDouble (u * totalPages)⌋ + 1

/-- The index `Math.floor(Math.random() * length)` of line 143, for the draw `u`: the product is
a double product. -/
def randomIndex (u : ℚ) (length : Nat) : Int := ⌊roundDouble (u * length)⌋

/-- The element `media[randomIndex]` of line 144; `none` is `undefined`. -/
def pickItem (media : List Anime) (u : ℚ) : Option Anime :=
  let i := randomIndex u media.length
  if 0 ≤ i then media.get? i.toNat else none

/-- Record a request in the trace. -/
def Trace.send (t : Trace) (v : Variables) : Trace := { t with requests := t.requests ++ [v] }

/-- Record a random draw in the trace. -/
def Trace.draw (t : Trace) : Trace := { t with draws := t.draws + 1 }

/-- The statements of the `try` block of `fetchRandomAnime` (lines 68-153), up to the point where
the block returns, throws or reaches one of its `else` branches. -/
def tryBody (w : World) (startYear endYear : Int) (t : Trace) : TryOutcome × Trace :=
  let probe := requestVariables startYear endYear 1
  match w.gateway t.calls probe with
  | .rejected error => (.threw error, t.send probe)
  | .json initialData =>
    let t := t.send probe
    match initialData.errors with
    | some errors => (.threw (apiError errors), t)
    | none =>
      match initialData.data.bind Data.Page with
      | none => (.invalidResponse, t)
      | some page =>
        match page.pageInfo with
        | none => (.threw ⟨"Cannot read properties of undefined (reading total)", none⟩, t)
        | some pageInfo =>
          if pageInfo.total = 0 then (.threw (noResultsError startYear endYear), t)
          else
            let totalPages := pageInfo.lastPage
            let pageNumber := randomPage (w.random t.draws).val totalPages
            let t := t.draw
            let request := requestVariables startYear endYear pageNumber
            match w.gateway t.calls request with
            | .rejected error => (.threw error, t.send request)
            | .json data =>
              let t := t.send request
              match data.errors with
              | some errors => (.threw (apiError errors), t)
              | none =>
                match (data.data.bind Data.Page).bind Page.media with
                | none => (.emptyResults pageNumber, t)
                | some [] => (.emptyResults pageNumber, t)
                | some (a :: media) =>
                  (.returned (pickItem (a :: media) (w.random t.draws).val), t.draw)

/-- One execution of the `try` block, its outcome recorded in the trace. -/
def tryBlock (w : World) (startYear endYear : Int) (t : Trace) : TryOutcome × Trace :=
  let r := tryBody w startYear endYear t
  (r.1, { r.2 with outcomes := r.2.outcomes ++ [r.1] })

/-- How a call of `fetchRandomAnime` ends. -/
inductive Completion where
  | returned (item : Option Anime)
  | threw (error : JsError)
deriving DecidableEq, Repr

/-- The `while (attempts < maxRetries)` loop of `fetchRandomAnime`, from the given value of
`attempts`. The result carries the final value of `attempts` and the trace. -/
def retryLoop (w : World) (startYear endYear : Int) (maxRetries : Int) (attempts : Nat)
    (t : Trace) : Completion × Nat × Trace :=
  if (attempts : Int) < maxRetries then
    match tryBlock w startYear endYear t with
    | (.returned item, t1) => (.returned item, attempts, t1)
    | (.threw error, t1) =>
      if ((attempts + 1 : Nat) : Int) ≥ maxRetries then (.threw error, attempts + 1, t1)
      else retryLoop w startYear endYear maxRetries (attempts + 1) t1
    | (.emptyResults _, t1) => retryLoop w startYear endYear maxRetries (attempts + 1) t1
    | (.invalidResponse, t1) => retryLoop w startYear endYear maxRetries (attempts + 1) t1
  else (.threw exhaustedError, attempts, t)
termination_by (maxRetries - attempts).toNat
decreasing_by all_goals (simp_wf; omega)

/-- The function `fetchRandomAnime(startYear, endYear, maxRetries = 5)`; `maxRetries = none` is
the omitted argument. The result carries the final value of `attempts` and the trace. -/
def fetchRandomAnime (w : World) (startYear endYear : Int) (maxRetries : Option Int) :
    Completion × Nat × Trace :=
  retryLoop w startYear endYear (maxRetries.getD 5) 0 Trace.init

/-- Whether the attempt ended the run by `return`. -/
def TryOutcome.isReturn : TryOutcome → Bool
  | .returned _ => true
  | _ => false

/-- The error the run ends with when the attempt that uses up the budget ends in this outcome: a
caught error is rethrown (line 160); after an `else` branch the loop exits and line 165 throws. -/
def TryOutcome.finalError : TryOutcome → JsError
  | .threw error => error
  | _ => exhaustedError

/-- The total the count probe reads from a response that passes every check before line 104
(not rejected, `errors` absent, `data.Page.pageInfo` present). -/
def probeTotal : FetchOutcome → Option Int
  | .rejected _ => none
  | .json body =>
    match body.errors with
    | some _ => none
    | none => ((body.data.bind Data.Page).bind Page.pageInfo).map PageInfo.total

/-- The media list the page fetch reads from a response that passes every check before line 141
(not rejected, `errors` absent, `data.Page.media` present). -/
def fetchedMedia : FetchOutcome → Option (List Anime)
  | .rejected _ => none
  | .json body =>
    match body.errors with
    | some _ => none
    | none => (body.data.bind Data.Page).bind Page.media

/-! ## `extractThemes`, `extractDemographics` -/

/-- The function `extractThemes(tags)` (lines 169-178). -/
def extractThemes (tags : Option (List Tag)) : String :=
  match tags with
  | none => "N/A"
  | some tags =>
    if tags.length = 0 then "N/A"
    else
      let themes := (((tags.filter fun tag => tag.category = some "Theme").take 5).map
        fun tag => tag.name)
      if themes.length > 0 then ", ".intercalate themes else "N/A"

/-- The function `extractDemographics(tags)` (lines 181-189). -/
def extractDemographics (tags : Option (List Tag)) : String :=
  match tags with
  | none => "N/A"
  | some tags =>
    if tags.length = 0 then "N/A"
    else
      let demographics := ((tags.filter fun tag => tag.category = some "Demographic").map
        fun tag => tag.name)
      if demographics.length > 0 then ", ".intercalate demographics else "N/A"

/-! ## The timeline (`src/timeline.js`) -/

/-- A media record of the relations query: the subject (without its `relations`) or the `node` of
an edge. -/
structure MediaNode where
  id : Int
  title : Title
  startDate : Option FuzzyDate
  format : Option String
deriving DecidableEq, Repr

/-- An element of `relations.edges`. -/
structure RelationEdge where
  relationType : String
  node : MediaNode
deriving DecidableEq, Repr

/-- The object `data.Media`: the subject and `relations.edges`. -/
structure TimelineMedia extends MediaNode where
  edges : List RelationEdge
deriving DecidableEq, Repr

/-- An element of `allAnime`: `{ ...node, relationType, isCurrent }`. -/
structure TimelineEntry extends MediaNode where
  relationType : String
  isCurrent : Bool
deriving DecidableEq, Repr

/-- The array literal of line 96. -/
def relevantTypes : List String :=
  ["SEQUEL", "PREQUEL", "SIDE_STORY", "ALTERNATIVE", "PARENT", "SPIN_OFF"]

/-- The array `relevantRelations` (lines 95-97). -/
def relevantRelations (relations : List RelationEdge) : List RelationEdge :=
  relations.filter fun edge => relevantTypes.contains edge.relationType

/-- The array `allAnime` as built at lines 105-108, before it is sorted. -/
def allAnime (anime : TimelineMedia) : List TimelineEntry :=
  { toMediaNode := anime.toMediaNode, relationType := "CURRENT", isCurrent := true } ::
    (relevantRelations anime.edges).map fun edge =>
      { toMediaNode := edge.node, relationType := edge.relationType, isCurrent := false }

/-- The sort key `a.startDate?.year || 9999`: the year, or 9999 when it is absent or `0`. -/
def sortYear (a : TimelineEntry) : Int :=
  match a.startDate.bind FuzzyDate.year with
  | none => 9999
  | some year => if year = 0 then 9999 else year

/-- The comparator of lines 111-115. -/
def compareYear (a b : TimelineEntry) : Int := sortYear a - sortYear b

/-- The call `allAnime.sort(compareYear)` of lines 111-115, a stable sort. -/
def sortByYear (entries : List TimelineEntry) : List TimelineEntry :=
  entries.insertionSort fun a b => compareYear a b ≤ 0

/-- The expression `a || b` on strings that may be absent: `a` unless it is absent or empty. -/
def orElse (a b : Option String) : Option String :=
  match a with
  | some s => if s = "" then b else some s
  | none => b

/-- The function `formatRelationType(type)`; `typeMap` is looked up for its own six keys. -/
def formatRelationType (type : String) : String :=
  match type with
  | "SEQUEL" => "Sequel"
  | "PREQUEL" => "Prequel"
  | "SIDE_STORY" => "Side Story"
  | "ALTERNATIVE" => "Alternative"
  | "PARENT" => "Parent Story"
  | "SPIN_OFF" => "Spin-off"
  | type => type

/-- What `createTimelineCard` renders: the `current` class, the title, the year and format texts,
the relation badge (absent for the subject) and the id of the linked page. -/
structure TimelineCard where
  current : Bool
  title : Option String
  year : String
  format : String
  badge : Option String
  id : Int
deriving DecidableEq, Repr

/-- The function `createTimelineCard(anime)`. -/
def createTimelineCard (anime : TimelineEntry) : TimelineCard :=
  let title := orElse anime.title.english anime.title.romaji
  let year :=
    match anime.startDate.bind FuzzyDate.year with
    | none => "Unknown"
    | some y => if y = 0 then "Unknown" else toString y
  let format :=
    match anime.format with
    | none => "Unknown"
    | some f => if f = "" then "Unknown" else f
  { current := anime.isCurrent, title := title, year := year, format := format,
    badge := if anime.relationType ≠ "CURRENT" then some (formatRelationType anime.relationType)
      else none,
    id := anime.id }

/-- What `buildTimeline` leaves on the page: the "standalone series" notice of
`displayNoRelations`, or the cards in display order; each with the text of `timelineMessage`. -/
inductive TimelineView where
  | noRelations (title : Option String) (message : String)
  | timeline (cards : List TimelineCard) (message : String)
deriving DecidableEq, Repr

/-- The function `displayNoRelations(anime)`. -/
def displayNoRelations (anime : TimelineMedia) : TimelineView :=
  let title := orElse anime.title.english anime.title.romaji
  .noRelations title "This anime has no related series"

/-- The function `buildTimeline(anime)`. -/
def buildTimeline (anime : TimelineMedia) : TimelineView :=
  let relations := anime.edges
  let relevant := relevantRelations relations
  if relevant.length = 0 then displayNoRelations anime
  else
    .timeline ((sortByYear (allAnime anime)).map createTimelineCard)
      ("Found " ++ toString relevant.length ++ " related anime in this series")

/-! ## Sample inputs -/

/-- An anime record used in the examples. -/
def sampleAnime : Anime :=
  { id := 1, title := ⟨some "Kaubōi Bibappu", some "Cowboy Bebop"⟩, description := none,
    startDate := some ⟨some 1998⟩, tags := none }

/-- A response body with the given page information and media list. -/
def pageBody (total lastPage : Int) (media : List Anime) : ResponseBody :=
  { errors := none, data := some ⟨some ⟨some ⟨total, lastPage⟩, some media⟩⟩ }

/-- A gateway for which the filter matches nothing: every response reports `total = 0`. -/
def zeroTotalWorld : World :=
  { gateway := fun _ _ => .json (pageBody 0 0 []), random := fun _ => ⟨0, le_refl 0, zero_lt_one, if_pos rfl⟩ }

/-- A gateway that always reports one matching item and returns an empty page. -/
def emptyPageWorld : World :=
  { gateway := fun _ _ => .json (pageBody 1 1 []), random := fun _ => ⟨0, le_refl 0, zero_lt_one, if_pos rfl⟩ }

/-- A gateway that cannot be reached: every `fetch` rejects. -/
def offlineWorld : World :=
  { gateway := fun _ _ => .rejected ⟨"Failed to fetch", none⟩,
    random := fun _ => ⟨0, le_refl 0, zero_lt_one, if_pos rfl⟩ }

/-- A node with the given id and year. -/
def nodeOfYear (id : Int) (year : Option Int) : MediaNode :=
  { id := id, title := ⟨none, none⟩, startDate := some ⟨year⟩, format := none }

/-- The release year by which the specification orders the timeline: the year of the entry, and
`⊤` (+infinity) when the year is unknown. -/
def releaseYear (a : TimelineEntry) : WithTop Int :=
  match a.startDate.bind FuzzyDate.year with
  | none => ⊤
  | some year => (year : WithTop Int)

/-- The timeline entry of a related anime with the given id, year and relation type. -/
def entryOfYear (id : Int) (year : Option Int) (relationType : String) : TimelineEntry :=
  { toMediaNode := nodeOfYear id year, relationType := relationType, isCurrent := false }

/-- A subject dated in the year 10000 with one sequel of unknown year. -/
def farFutureSubject : TimelineMedia :=
  { toMediaNode := nodeOfYear 1 (some 10000), edges := [⟨"SEQUEL", nodeOfYear 2 none⟩] }

/-- The human-readable name the specification gives to each relevant relation kind. -/
def relationLabels : List (String × String) :=
  [("SEQUEL", "Sequel"), ("PREQUEL", "Prequel"), ("SIDE_STORY", "Side Story"),
    ("ALTERNATIVE", "Alternative"), ("PARENT", "Parent Story"), ("SPIN_OFF", "Spin-off")]

/-- The names of the tags of the given category, in tag order (the specification of the tag
derivation). -/
def namesOfCategory (category : String) : List Tag → List String
  | [] => []
  | tag :: rest =>
    if tag.category = some category then tag.name :: namesOfCategory category rest
    else namesOfCategory category rest

/-- The given strings separated by `", "` (the specification of `join(', ')`). -/
def joinComma : List String → String
  | [] => ""
  | [x] => x
  | x :: y :: rest => x ++ ", " ++ joinComma (y :: rest)

/-- The tag list of the example in the specification. -/
def sampleTags : List Tag :=
  [⟨"Isekai", some "Theme"⟩, ⟨"Seinen", some "Demographic"⟩, ⟨"Time Travel", some "Theme"⟩]

/-- Six tags of category `Theme`. -/
def sixThemeTags : List Tag :=
  [⟨"A", some "Theme"⟩, ⟨"B", some "Theme"⟩, ⟨"C", some "Theme"⟩, ⟨"D", some "Theme"⟩,
    ⟨"E", some "Theme"⟩, ⟨"F", some "Theme"⟩]

/-! ## The plot text of `displayAnime` -/

/-- The global replacement `text.replace(/<[^>]*>/g, '')` on the characters of `text`. The text is
scanned from the left. At a `<`, the class `[^>]*` takes every character that is not `>`, and
the pattern matches when a `>` comes next: the match is dropped and the scan resumes after that
`>`. At any other place the character is kept and the scan moves on by one. -/
def stripTags (text : List Char) : List Char :=
  match text with
  | [] => []
  | c :: cs =>
    if c = '<' then
      let fromClose := cs.dropWhile fun x => x != '>'
      if fromClose.isEmpty then c :: stripTags cs else stripTags fromClose.tail
    else c :: stripTags cs
termination_by text.length
decreasing_by
  all_goals simp_wf
  have hle := (List.dropWhile_sublist (fun x => x != '>') (l := cs)).length_le
  omega

/-- What `displayAnime` writes to the page from the modelled fields of the record: the title, the
themes, the demographics and the plot text. -/
structure AnimeDisplay where
  title : Option String
  themes : String
  demographics : String
  plot : String
deriving DecidableEq, Repr

/-- The function `displayAnime(anime)`, restricted to the elements `animeTitle`, `themes`,
`demographics` and `plot`. -/
def displayAnime (anime : Anime) : AnimeDisplay :=
  let title := orElse anime.title.english anime.title.romaji
  let description :=
    match anime.description with
    | none => "No description available."
    | some d => if d = "" then "No description available." else String.mk (stripTags d.data)
  { title := title, themes := extractThemes anime.tags,
    demographics := extractDemographics anime.tags, plot := description }

/-- A text holds no markup tag: no `<` of it is followed, anywhere later, by a `>`. -/
def NoTag (text : List Char) : Prop :=
  ∀ pre post, text = pre ++ '<' :: post → '>' ∉ post

/-! ## `fetchAnimeTimeline` -/

/-- The object `data` of a response to the relations query. -/
structure RelationsData where
  Media : Option TimelineMedia
deriving DecidableEq, Repr

/-- A parsed response body of the relations query: `errors` (absent, or the array of the reported
messages) and `data`. -/
structure RelationsBody where
  errors : Option (List String)
  data : Option RelationsData
deriving DecidableEq, Repr

/-- What `await fetch(...)` followed by `await response.json()` yields for the relations query. -/
inductive RelationsOutcome where
  | rejected (error : JsError)
  | json (body : RelationsBody)
deriving DecidableEq, Repr

/-- The function `fetchAnimeTimeline(animeId)`. The gateway gives the outcome of the request as a
function of the variable `id = parseInt(animeId)`. An error thrown in the `try` block is logged
and rethrown by the `catch` clause; `.ok none` is the return value `null`. -/
def fetchAnimeTimeline (gateway : Option Int → RelationsOutcome) (animeId : String) :
    Except JsError (Option TimelineMedia) :=
  match gateway (parseInt animeId) with
  | .rejected error => .error error
  | .json data =>
    match data.errors with
    | some _ => .error ⟨"Failed to fetch anime timeline", none⟩
    | none =>
      match data.data with
      | none => .error ⟨"Cannot read properties of undefined (reading Media)", none⟩
      | some d => .ok d.Media

/-! ## Further sample inputs -/

/-- An anime record whose description carries markup. -/
def taggedAnime : Anime :=
  { sampleAnime with description := some "<p>Great <b>show</b></p>" }

/-- A sampling gateway that answers every request with the error "Too Many Requests.". -/
def rateLimitedWorld : World :=
  { gateway := fun _ _ => .json ⟨some ["Too Many Requests."], none⟩,
    random := fun _ => ⟨0, le_refl 0, zero_lt_one, if_pos rfl⟩ }

/-- A sampling gateway whose count probe succeeds and whose page fetch is answered with the error
"Too Many Requests.". -/
def rateLimitedPageWorld : World :=
  { gateway := fun k _ =>
      if k = 0 then .json (pageBody 1 1 []) else .json ⟨some ["Too Many Requests."], none⟩,
    random := fun _ => ⟨0, le_refl 0, zero_lt_one, if_pos rfl⟩ }

/-- A relations gateway that answers with the error "Not Found.". -/
def notFoundGateway : Option Int → RelationsOutcome :=
  fun _ => .json ⟨some ["Not Found."], none⟩

/-- The double `6004799503160661 / 2^53`, just below `2/3`; three times it is `2 - 2^(-53)`,
halfway between the doubles `2 - 2^(-52)` and `2`. -/
def boundaryDraw : ℚ := 6004799503160661 / 9007199254740992

/-- A gateway that always reports one matching item on one page and returns that item. -/
def onePageWorld : World :=
  { gateway := fun _ _ => .json (pageBody 1 1 [sampleAnime]),
    random := fun _ => ⟨0, le_refl 0, zero_lt_one, if_pos rfl⟩ }

/-! ## Lemmas on one attempt and on the retry loop -/

/-- The `try` block itself leaves the recorded outcomes unchanged. -/
theorem tryBody_outcomes (w : World) (s e : Int) (t : Trace) :
    (tryBody w s e t).2.outcomes = t.outcomes := by
  unfold tryBody
  simp only [Trace.send, Trace.draw]
  repeat' split
  all_goals rfl

/-- An attempt sends the count probe for page 1 and at most one page fetch. -/
theorem tryBody_requests (w : World) (s e : Int) (t : Trace) :
    (tryBody w s e t).2.requests = t.requests ++ [requestVariables s e 1] ∨
    ∃ p, (tryBody w s e t).2.requests =
      t.requests ++ [requestVariables s e 1, requestVariables s e p] := by
  unfold tryBody
  simp only [Trace.send, Trace.draw]
  repeat' split
  all_goals first
    | (left; rfl)
    | (right; exact ⟨_, List.append_assoc _ _ _⟩)

/-- An attempt records exactly its own outcome. -/
theorem tryBlock_outcomes (w : World) (s e : Int) (t : Trace) :
    (tryBlock w s e t).2.outcomes = t.outcomes ++ [(tryBlock w s e t).1] := by
  simp [tryBlock, tryBody_outcomes]

/-- An attempt makes one or two gateway calls. -/
theorem tryBlock_calls (w : World) (s e : Int) (t : Trace) :
    t.calls + 1 ≤ (tryBlock w s e t).2.calls ∧ (tryBlock w s e t).2.calls ≤ t.calls + 2 := by
  have h : (tryBlock w s e t).2.requests = (tryBody w s e t).2.requests := rfl
  unfold Trace.calls
  rw [h]
  rcases tryBody_requests w s e t with h1 | ⟨p, h1⟩ <;> rw [h1] <;> simp

/-- The shape of every run of the loop from `attempts = a`, with `d = max(N - a, 0)`: the
outcomes it adds, the calls it makes, the final value of `attempts` and the error it ends with. -/
theorem retryLoop_run (w : World) (s e N : Int) : ∀ (d a : Nat) (t : Trace),
    (N - a).toNat = d →
    ∃ os : List TryOutcome,
      (retryLoop w s e N a t).2.2.outcomes = t.outcomes ++ os ∧
      t.calls + os.length ≤ (retryLoop w s e N a t).2.2.calls ∧
      (retryLoop w s e N a t).2.2.calls ≤ t.calls + 2 * os.length ∧
      os.length ≤ d ∧
      (∀ item, (retryLoop w s e N a t).1 = .returned item →
        ∃ os1, os = os1 ++ [.returned item] ∧ (∀ o ∈ os1, o.isReturn = false) ∧
          (retryLoop w s e N a t).2.1 = a + os1.length) ∧
      (∀ err, (retryLoop w s e N a t).1 = .threw err →
        (∀ o ∈ os, o.isReturn = false) ∧ (retryLoop w s e N a t).2.1 = a + os.length ∧
        ((N ≤ a ∧ os = [] ∧ err = exhaustedError) ∨
         (a < N ∧ os.length = d ∧ ∃ os1 last, os = os1 ++ [last] ∧ err = last.finalError))) := by
  intro d
  induction d with
  | zero =>
    intro a t hd
    have hN : ¬ ((a : Int) < N) := by omega
    refine ⟨[], ?_⟩
    rw [retryLoop, if_neg hN]
    simp
    omega
  | succ d ih =>
    intro a t hd
    have hN : (a : Int) < N := by omega
    have hd1 : (N - ((a + 1 : Nat) : Int)).toNat = d := by omega
    obtain ⟨os, h1, h2, h3, h4, h5, h6⟩ := ih (a + 1) (tryBlock w s e t).2 hd1
    have ho := tryBlock_outcomes w s e t
    have hc := tryBlock_calls w s e t
    rw [retryLoop, if_pos hN]
    rcases hb : tryBlock w s e t with ⟨o, t1⟩
    rw [hb] at ho hc h1 h2 h3 h5 h6
    simp only at ho hc h1 h2 h3 h5 h6
    have step : o.isReturn = false → (N ≤ ((a + 1 : Nat) : Int) → o.finalError = exhaustedError) →
        ∃ os : List TryOutcome,
      (retryLoop w s e N (a + 1) t1).2.2.outcomes = t.outcomes ++ os ∧
      t.calls + os.length ≤ (retryLoop w s e N (a + 1) t1).2.2.calls ∧
      (retryLoop w s e N (a + 1) t1).2.2.calls ≤ t.calls + 2 * os.length ∧
      os.length ≤ d + 1 ∧
      (∀ item, (retryLoop w s e N (a + 1) t1).1 = .returned item →
        ∃ os1, os = os1 ++ [.returned item] ∧ (∀ o ∈ os1, o.isReturn = false) ∧
          (retryLoop w s e N (a + 1) t1).2.1 = a + os1.length) ∧
      (∀ err, (retryLoop w s e N (a + 1) t1).1 = .threw err →
        (∀ o ∈ os, o.isReturn = false) ∧
        (retryLoop w s e N (a + 1) t1).2.1 = a + os.length ∧
        ((N ≤ a ∧ os = [] ∧ err = exhaustedError) ∨
         (a < N ∧ os.length = d + 1 ∧
          ∃ os1 last, os = os1 ++ [last] ∧ err = last.finalError))) := by
      intro hret hfin
      refine ⟨o :: os, ?_, ?_, ?_, ?_, ?_, ?_⟩
      · rw [h1, ho]; simp
      · simp only [List.length_cons]; omega
      · simp only [List.length_cons]; omega
      · simp only [List.length_cons]; omega
      · intro item h
        obtain ⟨os1, e1, e2, e3⟩ := h5 item h
        refine ⟨o :: os1, by simp [e1], ?_, ?_⟩
        · intro x hx
          rcases List.mem_cons.1 hx with rfl | hx
          · exact hret
          · exact e2 x hx
        · simp only [List.length_cons]; omega
      · intro err h
        obtain ⟨e1, e2, e3⟩ := h6 err h
        refine ⟨?_, ?_, Or.inr ⟨hN, ?_⟩⟩
        · intro x hx
          rcases List.mem_cons.1 hx with rfl | hx
          · exact hret
          · exact e1 x hx
        · simp only [List.length_cons]; omega
        · rcases e3 with ⟨g1, g2, g3⟩ | ⟨g1, g2, os1, last, g3, g4⟩
          · subst g2
            refine ⟨by simp; omega, [], o, rfl, ?_⟩
            rw [g3, hfin g1]
          · refine ⟨by simp only [List.length_cons]; omega, o :: os1, last, by simp [g3], g4⟩
    cases o with
    | returned item =>
      refine ⟨[.returned item], ?_⟩
      simp only [ho, List.length_singleton]
      refine ⟨trivial, by omega, by omega, by omega, ?_, ?_⟩
      · intro item1 h
        injection h with h
        subst h
        exact ⟨[], by simp⟩
      · intro err h
        cases h
    | threw error =>
      simp only
      by_cases hlast : ((a + 1 : Nat) : Int) ≥ N
      · rw [if_pos hlast]
        refine ⟨[.threw error], ?_⟩
        simp only [ho, List.length_singleton]
        refine ⟨trivial, by omega, by omega, by omega, ?_, ?_⟩
        · intro item h
          cases h
        · intro err h
          injection h with h
          subst h
          refine ⟨by simp [TryOutcome.isReturn], trivial, Or.inr ⟨hN, by omega, [], _, rfl, rfl⟩⟩
      · rw [if_neg hlast]
        exact step rfl (fun h => absurd h (by omega))
    | emptyResults p => exact step rfl (fun _ => rfl)
    | invalidResponse => exact step rfl (fun _ => rfl)

/-- An attempt whose count probe reports `total = 0` throws the zero-result error after that
one call. -/
theorem tryBody_zeroTotal (w : World) (s e : Int) (t : Trace)
    (h : probeTotal (w.gateway t.calls (requestVariables s e 1)) = some 0) :
    tryBody w s e t = (.threw (noResultsError s e), t.send (requestVariables s e 1)) := by
  unfold tryBody
  simp only
  cases hg : w.gateway t.calls (requestVariables s e 1) with
  | rejected err => simp [hg, probeTotal] at h
  | json body =>
    rw [hg] at h
    simp only [probeTotal] at h
    cases he : body.errors with
    | some errs => simp [he] at h
    | none =>
      simp only [he] at h
      cases hp : body.data.bind Data.Page with
      | none => simp [hp] at h
      | some page =>
        simp only [hp, Option.some_bind] at h
        cases hi : page.pageInfo with
        | none => simp [hi] at h
        | some info =>
          simp only [hi, Option.map_some', Option.some.injEq] at h
          simp [he, hp, hi, h]

/-- An attempt whose probe reports a non-zero total and whose page fetch returns an empty list
ends in the "empty results" branch after two calls and one draw. -/
theorem tryBody_emptyPage (w : World) (s e : Int) (t : Trace) (n : Int)
    (h : probeTotal (w.gateway t.calls (requestVariables s e 1)) = some n) (hn : n ≠ 0)
    (hm : ∀ v, fetchedMedia (w.gateway (t.calls + 1) v) = some []) :
    ∃ p, tryBody w s e t = (.emptyResults p,
      ⟨t.requests ++ [requestVariables s e 1, requestVariables s e p], t.draws + 1,
        t.outcomes⟩) := by
  unfold tryBody
  simp only
  cases hg : w.gateway t.calls (requestVariables s e 1) with
  | rejected err => simp [hg, probeTotal] at h
  | json body =>
    rw [hg] at h
    simp only [probeTotal] at h
    cases he : body.errors with
    | some errs => simp [he] at h
    | none =>
      simp only [he] at h
      cases hp : body.data.bind Data.Page with
      | none => simp [hp] at h
      | some page =>
        simp only [hp, Option.some_bind] at h
        cases hi : page.pageInfo with
        | none => simp [hi] at h
        | some info =>
          simp only [hi, Option.map_some', Option.some.injEq] at h
          have hne : ¬ info.total = 0 := by rw [h]; exact hn
          simp only [he, hp, hi, hne, if_false]
          refine ⟨randomPage (w.random t.draws).val info.lastPage, ?_⟩
          have hc : (t.send (requestVariables s e 1)).draw.calls = t.calls + 1 := by
            simp [Trace.send, Trace.draw, Trace.calls]
          have hm1 := hm (requestVariables s e (randomPage (w.random t.draws).val info.lastPage))
          rw [hc]
          cases hg2 : w.gateway (t.calls + 1)
              (requestVariables s e (randomPage (w.random t.draws).val info.lastPage)) with
          | rejected err => simp [hg2, fetchedMedia] at hm1
          | json body2 =>
            rw [hg2] at hm1
            simp only [fetchedMedia] at hm1
            cases he2 : body2.errors with
            | some errs => simp [he2] at hm1
            | none =>
              simp only [he2] at hm1
              simp [hg2, he2, hm1, Trace.send, Trace.draw]

/-- The trace after an attempt whose count probe reports `total = 0`. -/
theorem tryBlock_zeroTotal (w : World) (s e : Int) (t : Trace)
    (h : probeTotal (w.gateway t.calls (requestVariables s e 1)) = some 0) :
    tryBlock w s e t = (.threw (noResultsError s e),
      ⟨t.requests ++ [requestVariables s e 1], t.draws,
        t.outcomes ++ [.threw (noResultsError s e)]⟩) := by
  simp [tryBlock, tryBody_zeroTotal w s e t h, Trace.send]

/-- The loop against a gateway that always reports `total = 0`: every remaining attempt is
used, each with one call, and the zero-result error of the last one is rethrown. -/
theorem retryLoop_zeroTotal (w : World) (s e N : Int)
    (hz : ∀ k v, probeTotal (w.gateway k v) = some 0) :
    ∀ (d a : Nat) (t : Trace), (N - a).toNat = d + 1 →
      retryLoop w s e N a t = (.threw (noResultsError s e), a + d + 1,
        ⟨t.requests ++ List.replicate (d + 1) (requestVariables s e 1), t.draws,
          t.outcomes ++ List.replicate (d + 1) (.threw (noResultsError s e))⟩) := by
  intro d
  induction d with
  | zero =>
    intro a t hd
    have hN : (a : Int) < N := by omega
    have hlast : ((a + 1 : Nat) : Int) ≥ N := by omega
    rw [retryLoop, if_pos hN, tryBlock_zeroTotal w s e t (hz _ _)]
    simp only [if_pos hlast]
    rfl
  | succ d ih =>
    intro a t hd
    have hN : (a : Int) < N := by omega
    have hlast : ¬ ((a + 1 : Nat) : Int) ≥ N := by omega
    rw [retryLoop, if_pos hN, tryBlock_zeroTotal w s e t (hz _ _)]
    simp only [if_neg hlast]
    rw [ih (a + 1) _ (by omega)]
    simp [List.replicate_succ, Nat.add_assoc, Nat.add_comm 1 d]

/-- The trace after an attempt that fetched an empty page. -/
theorem tryBlock_emptyPage (w : World) (s e : Int) (t : Trace) (n : Int)
    (h : probeTotal (w.gateway t.calls (requestVariables s e 1)) = some n) (hn : n ≠ 0)
    (hm : ∀ v, fetchedMedia (w.gateway (t.calls + 1) v) = some []) :
    ∃ p, tryBlock w s e t = (.emptyResults p,
      ⟨t.requests ++ [requestVariables s e 1, requestVariables s e p], t.draws + 1,
        t.outcomes ++ [.emptyResults p]⟩) := by
  obtain ⟨p, hp⟩ := tryBody_emptyPage w s e t n h hn hm
  exact ⟨p, by simp [tryBlock, hp]⟩

/-- The loop against a gateway whose pages are always empty: every remaining attempt is
used, each with two calls, and the loop exits to the exhaustion error. -/
theorem retryLoop_emptyPage (w : World) (s e N : Int)
    (hprobe : ∀ k v, ∃ n, probeTotal (w.gateway (2 * k) v) = some n ∧ 0 < n)
    (hfetch : ∀ k v, fetchedMedia (w.gateway (2 * k + 1) v) = some []) :
    ∀ (d a : Nat) (t : Trace) (k : Nat), (N - a).toNat = d → t.calls = 2 * k →
      ∃ ps : List Int, ps.length = d ∧
        retryLoop w s e N a t = (.threw exhaustedError, a + d,
          ⟨t.requests ++
              (ps.map fun p => [requestVariables s e 1, requestVariables s e p]).flatten,
            t.draws + d, t.outcomes ++ ps.map .emptyResults⟩) := by
  intro d
  induction d with
  | zero =>
    intro a t k hd _
    have hN : ¬ ((a : Int) < N) := by omega
    refine ⟨[], rfl, ?_⟩
    rw [retryLoop, if_neg hN]
    simp
  | succ d ih =>
    intro a t k hd hk
    have hN : (a : Int) < N := by omega
    obtain ⟨n, hn, hpos⟩ := hprobe k (requestVariables s e 1)
    rw [← hk] at hn
    obtain ⟨p, hp⟩ := tryBlock_emptyPage w s e t n hn (by omega)
      (fun v => by rw [hk]; exact hfetch k v)
    obtain ⟨ps, hlen, hps⟩ := ih (a + 1)
      ⟨t.requests ++ [requestVariables s e 1, requestVariables s e p], t.draws + 1,
        t.outcomes ++ [.emptyResults p]⟩ (k + 1) (by omega)
      (by simp only [Trace.calls] at hk ⊢; simp; omega)
    refine ⟨p :: ps, by simp [hlen], ?_⟩
    rw [retryLoop, if_pos hN, hp]
    simp only
    rw [hps]
    simp [Nat.add_assoc, Nat.add_comm 1 d]

/-! ## The sampler: retries and their budget (C1-C4) -/

/-- C1 (as amended): for every year range, every `maxRetries = N ≥ 1` and every gateway whose
count probes all report `total == 0`, `fetchRandomAnime` fails with the error
"No anime found in the year range <start>-<end>" after exactly `N` attempts of one gateway call
each (no page is fetched, nothing is drawn): the zero-result error is caught and retried like
any other error, every occurrence uses up one unit of the retry budget, and it ends the run
after a single attempt only when `N = 1`. -/
theorem fetchRandomAnime_zeroTotal (w : World) (startYear endYear : Int) (N : Nat)
    (hN : 1 ≤ N) (hzero : ∀ k v, probeTotal (w.gateway k v) = some 0) :
    fetchRandomAnime w startYear endYear (some (N : Int)) =
      (.threw (noResultsError startYear endYear), N,
        ⟨List.replicate N (requestVariables startYear endYear 1), 0,
          List.replicate N (.threw (noResultsError startYear endYear))⟩) ∧
    (noResultsError startYear endYear).message =
      "No anime found in the year range " ++ toString startYear ++ "-" ++ toString endYear ∧
    (fetchRandomAnime w startYear endYear (some (N : Int))).2.2.tries = N ∧
    (fetchRandomAnime w startYear endYear (some (N : Int))).2.2.calls = N := by
  obtain ⟨d, rfl⟩ : ∃ d, N = d + 1 := ⟨N - 1, by omega⟩
  have h := retryLoop_zeroTotal w startYear endYear ((d + 1 : Nat) : Int) hzero d 0 Trace.init
    (by omega)
  have hrun : fetchRandomAnime w startYear endYear (some ((d + 1 : Nat) : Int)) =
      (.threw (noResultsError startYear endYear), d + 1,
        ⟨List.replicate (d + 1) (requestVariables startYear endYear 1), 0,
          List.replicate (d + 1) (.threw (noResultsError startYear endYear))⟩) := by
    rw [fetchRandomAnime, Option.getD_some, h]
    simp [Trace.init]
  refine ⟨hrun, rfl, ?_, ?_⟩
  · rw [hrun]; simp [Trace.tries]
  · rw [hrun]; simp [Trace.calls]

/-- The amended C1 at `zeroTotalWorld` with `maxRetries = 3`: three gateway calls. -/
theorem fetchRandomAnime_zeroTotal_witness :
    (1 ≤ 3 ∧ ∀ k v, probeTotal (zeroTotalWorld.gateway k v) = some 0) ∧
    (fetchRandomAnime zeroTotalWorld 1990 1999 (some ((3 : Nat) : Int))).2.2.calls = 3 :=
  ⟨⟨by decide, fun _ _ => rfl⟩,
    (fetchRandomAnime_zeroTotal zeroTotalWorld 1990 1999 3 (by decide) (fun _ _ => rfl)).2.2.2⟩

/-- C1, counterexample: with `maxRetries = 2` and a gateway whose count probe reports
`total == 0`, the run makes two attempts and two gateway calls, not one: the zero-result error of
the first attempt is caught and retried. -/
theorem zeroTotal_is_retried :
    probeTotal (zeroTotalWorld.gateway 0 (requestVariables 1990 1999 1)) = some 0 ∧
    (fetchRandomAnime zeroTotalWorld 1990 1999 (some 2)).1 =
      .threw (noResultsError 1990 1999) ∧
    (fetchRandomAnime zeroTotalWorld 1990 1999 (some 2)).2.2.tries = 2 ∧
    (fetchRandomAnime zeroTotalWorld 1990 1999 (some 2)).2.2.calls = 2 ∧
    ¬ ((fetchRandomAnime zeroTotalWorld 1990 1999 (some 2)).2.2.tries = 1 ∧
       (fetchRandomAnime zeroTotalWorld 1990 1999 (some 2)).2.2.calls = 1) := by
  have h := retryLoop_zeroTotal zeroTotalWorld 1990 1999 2 (fun _ _ => rfl) 1 0 Trace.init
    (by decide)
  have hrun : fetchRandomAnime zeroTotalWorld 1990 1999 (some 2) =
      (.threw (noResultsError 1990 1999), 2,
        ⟨List.replicate 2 (requestVariables 1990 1999 1), 0,
          List.replicate 2 (.threw (noResultsError 1990 1999))⟩) := by
    rw [fetchRandomAnime, Option.getD_some, h]
    simp [Trace.init]
  rw [hrun]
  refine ⟨rfl, rfl, ?_, ?_, ?_⟩ <;> simp [Trace.tries, Trace.calls]

/-- C2: for every `N ≥ 1`, with `maxRetries = N` and a gateway whose count probes (the calls of
even index) all report `total > 0` and whose page fetches (the calls of odd index) all return
an empty media list, `fetchRandomAnime` makes exactly `N` attempts, each a count probe for page 1
followed by one page fetch (`2 * N` calls), every attempt ends in the "empty results" branch,
no item is returned, and the run fails with the error
"Failed to fetch anime after multiple attempts". -/
theorem fetchRandomAnime_emptyPages (w : World) (startYear endYear : Int) (N : Nat)
    (hN : 1 ≤ N)
    (hprobe : ∀ k v, ∃ n, probeTotal (w.gateway (2 * k) v) = some n ∧ 0 < n)
    (hfetch : ∀ k v, fetchedMedia (w.gateway (2 * k + 1) v) = some []) :
    (∃ pages : List Int, pages.length = N ∧
      fetchRandomAnime w startYear endYear (some (N : Int)) =
        (.threw exhaustedError, N,
          ⟨(pages.map fun p =>
              [requestVariables startYear endYear 1, requestVariables startYear endYear p]).flatten,
            N, pages.map .emptyResults⟩)) ∧
    (fetchRandomAnime w startYear endYear (some (N : Int))).2.2.tries = N ∧
    (fetchRandomAnime w startYear endYear (some (N : Int))).2.2.calls = 2 * N ∧
    (∀ item, (fetchRandomAnime w startYear endYear (some (N : Int))).1 ≠ .returned item) ∧
    exhaustedError.message = "Failed to fetch anime after multiple attempts" := by
  obtain ⟨ps, hlen, hps⟩ := retryLoop_emptyPage w startYear endYear (N : Int) hprobe hfetch
    N 0 Trace.init 0 (by omega) rfl
  have hrun : fetchRandomAnime w startYear endYear (some (N : Int)) =
        (.threw exhaustedError, N,
          ⟨(ps.map fun p =>
              [requestVariables startYear endYear 1, requestVariables startYear endYear p]).flatten,
            N, ps.map .emptyResults⟩) := by
    rw [fetchRandomAnime, Option.getD_some, hps]
    simp [Trace.init]
  refine ⟨⟨ps, hlen, hrun⟩, ?_, ?_, ?_, rfl⟩
  · rw [hrun]; simp [Trace.tries, hlen]
  · rw [hrun]
    simp only [Trace.calls, List.length_flatten, List.map_map]
    have : (List.map (List.length ∘ fun p =>
        [requestVariables startYear endYear 1, requestVariables startYear endYear p]) ps) =
        List.replicate ps.length 2 := by
      rw [List.eq_replicate_iff]
      simp
    rw [this, List.sum_replicate, hlen]
    simp [Nat.mul_comm]
  · intro item
    rw [hrun]
    simp

/-- C2 at `emptyPageWorld` with `maxRetries = 3`: six gateway calls. -/
theorem fetchRandomAnime_emptyPages_witness :
    (fetchRandomAnime emptyPageWorld 1990 1999 (some ((3 : Nat) : Int))).2.2.calls = 2 * 3 :=
  (fetchRandomAnime_emptyPages emptyPageWorld 1990 1999 3 (by decide)
    (fun _ _ => ⟨1, rfl, by decide⟩) (fun _ _ => rfl)).2.2.1

/-- C3 (as amended): for every `N ≥ 1` and every gateway on which no attempt of
`fetchRandomAnime` returns an item, the run fails after exactly `N` attempts, and the error it
throws is decided by the last attempt: when that attempt threw (transport, parse or API error,
or the zero-result error), the same error is rethrown unchanged, with its own message and not
wrapped; when that attempt ended in the "empty results" or "invalid response" branch, a new
error with the message "Failed to fetch anime after multiple attempts" is thrown, which
carries no underlying error. -/
theorem fetchRandomAnime_all_attempts_fail (w : World) (startYear endYear : Int) (N : Nat)
    (hN : 1 ≤ N)
    (hfail : ∀ o ∈ (fetchRandomAnime w startYear endYear (some (N : Int))).2.2.outcomes,
      o.isReturn = false) :
    ∃ err last,
      (fetchRandomAnime w startYear endYear (some (N : Int))).1 = .threw err ∧
      (fetchRandomAnime w startYear endYear (some (N : Int))).2.2.tries = N ∧
      (fetchRandomAnime w startYear endYear (some (N : Int))).2.2.outcomes.getLast? = some last ∧
      (last = .threw err ∨
        ((last = .invalidResponse ∨ ∃ p, last = .emptyResults p) ∧ err = exhaustedError)) ∧
      exhaustedError = ⟨"Failed to fetch anime after multiple attempts", none⟩ := by
  obtain ⟨os, h1, _, _, _, h5, h6⟩ :=
    retryLoop_run w startYear endYear (N : Int) _ 0 Trace.init rfl
  have hout : Trace.init.outcomes = [] := rfl
  rw [hout, List.nil_append] at h1
  simp only [fetchRandomAnime, Option.getD_some] at hfail ⊢
  rw [h1] at hfail
  cases hc : (retryLoop w startYear endYear (N : Int) 0 Trace.init).1 with
  | returned item =>
    obtain ⟨os1, e1, _, _⟩ := h5 item hc
    have := hfail (.returned item) (by simp [e1])
    simp [TryOutcome.isReturn] at this
  | threw err =>
    obtain ⟨_, _, e3⟩ := h6 err hc
    rcases e3 with ⟨g1, _, _⟩ | ⟨_, g2, os1, last, g3, g4⟩
    · omega
    · refine ⟨err, last, rfl, ?_, ?_, ?_, rfl⟩
      · rw [Trace.tries, h1, g2]; omega
      · rw [h1, g3]; simp
      · have hl := hfail last (by simp [g3])
        cases last with
        | returned item => simp [TryOutcome.isReturn] at hl
        | threw e1 => left; rw [g4]; rfl
        | emptyResults p => right; exact ⟨Or.inr ⟨p, rfl⟩, g4⟩
        | invalidResponse => right; exact ⟨Or.inl rfl, g4⟩

/-- The run against an unreachable gateway with `maxRetries = 2`. -/
theorem offline_run :
    fetchRandomAnime offlineWorld 1990 1999 (some 2) =
      (.threw ⟨"Failed to fetch", none⟩, 2,
        ⟨[requestVariables 1990 1999 1, requestVariables 1990 1999 1], 0,
          [.threw ⟨"Failed to fetch", none⟩, .threw ⟨"Failed to fetch", none⟩]⟩) := by
  simp [fetchRandomAnime, retryLoop, tryBlock, tryBody, offlineWorld, Trace.init, Trace.send,
    Trace.calls]

/-- The amended C3 at `offlineWorld` with `maxRetries = 2`: the run throws. -/
theorem fetchRandomAnime_all_attempts_fail_witness :
    ∃ err, (fetchRandomAnime offlineWorld 1990 1999 (some ((2 : Nat) : Int))).1 = .threw err :=
  let ⟨err, _, h, _⟩ := fetchRandomAnime_all_attempts_fail offlineWorld 1990 1999 2 (by decide)
    (by simp only [Nat.cast_ofNat]; rw [offline_run]; decide)
  ⟨err, h⟩

/-- C3, counterexample: with `maxRetries = 2` and a gateway on which every `fetch` rejects with
"Failed to fetch", both attempts fail and the run throws that very error: its message is not
the generic one and no error wrapping it is produced. -/
theorem offline_error_rethrown_unwrapped :
    (∀ o ∈ (fetchRandomAnime offlineWorld 1990 1999 (some 2)).2.2.outcomes,
      o.isReturn = false) ∧
    (fetchRandomAnime offlineWorld 1990 1999 (some 2)).2.2.tries = 2 ∧
    (fetchRandomAnime offlineWorld 1990 1999 (some 2)).1 = .threw ⟨"Failed to fetch", none⟩ ∧
    ¬ ∃ err, (fetchRandomAnime offlineWorld 1990 1999 (some 2)).1 = .threw err ∧
      err.message = "Failed to fetch anime after multiple attempts" ∧
      err.cause = some "Failed to fetch" := by
  rw [offline_run]
  refine ⟨by decide, rfl, rfl, ?_⟩
  rintro ⟨err, h, hmsg, _⟩
  injection h with h
  rw [← h] at hmsg
  revert hmsg
  decide

/-- C4: for every `maxRetries` (5 when the argument is omitted) and every gateway,
`fetchRandomAnime` ends (it is a total function returning an item or an error) after at most
`max(maxRetries, 0)` attempts and at most `2 * max(maxRetries, 0)` gateway calls, at most two
per attempt; the final value of `attempts` is the number of attempts that did not return, so
each of them increased the counter by exactly one; and with `maxRetries ≤ 0` the run fails with
the exhaustion error without any attempt or gateway call. -/
theorem fetchRandomAnime_bounded (w : World) (startYear endYear : Int)
    (maxRetries : Option Int) :
    fetchRandomAnime w startYear endYear none = fetchRandomAnime w startYear endYear (some 5) ∧
    ((fetchRandomAnime w startYear endYear maxRetries).2.2.tries : Int) ≤
      max (maxRetries.getD 5) 0 ∧
    ((fetchRandomAnime w startYear endYear maxRetries).2.2.calls : Int) ≤
      2 * max (maxRetries.getD 5) 0 ∧
    (fetchRandomAnime w startYear endYear maxRetries).2.2.calls ≤
      2 * (fetchRandomAnime w startYear endYear maxRetries).2.2.tries ∧
    (fetchRandomAnime w startYear endYear maxRetries).2.1 =
      (fetchRandomAnime w startYear endYear maxRetries).2.2.outcomes.countP
        (fun o => !o.isReturn) ∧
    (maxRetries.getD 5 ≤ 0 → fetchRandomAnime w startYear endYear maxRetries =
      (.threw exhaustedError, 0, Trace.init)) := by
  obtain ⟨os, h1, h2, h3, h4, h5, h6⟩ :=
    retryLoop_run w startYear endYear (maxRetries.getD 5) _ 0 Trace.init rfl
  have hcalls : Trace.init.calls = 0 := rfl
  have hout : Trace.init.outcomes = [] := rfl
  rw [hcalls] at h2 h3
  rw [hout, List.nil_append] at h1
  refine ⟨rfl, ?_, ?_, ?_, ?_, ?_⟩
  · simp only [fetchRandomAnime, Trace.tries, h1]
    omega
  · simp only [fetchRandomAnime]
    omega
  · simp only [fetchRandomAnime, Trace.tries, h1]
    omega
  · simp only [fetchRandomAnime, h1]
    cases hc : (retryLoop w startYear endYear (maxRetries.getD 5) 0 Trace.init).1 with
    | returned item =>
      obtain ⟨os1, e1, e2, e3⟩ := h5 item hc
      rw [e3, e1, List.countP_append, List.countP_eq_length.2]
      · simp [TryOutcome.isReturn]
      · intro o ho
        simp [e2 o ho]
    | threw err =>
      obtain ⟨e1, e2, _⟩ := h6 err hc
      rw [e2, List.countP_eq_length.2]
      · simp
      · intro o ho
        simp [e1 o ho]
  · intro hN
    have hlt : ¬ (((0 : Nat) : Int) < maxRetries.getD 5) := by omega
    rw [fetchRandomAnime, retryLoop, if_neg hlt]

/-- C4 at `maxRetries = 0`: the run fails at once, with an empty trace. -/
theorem fetchRandomAnime_bounded_witness :
    (some (0 : Int)).getD 5 ≤ 0 ∧
    fetchRandomAnime zeroTotalWorld 1990 1999 (some 0) = (.threw exhaustedError, 0, Trace.init) :=
  ⟨by decide, (fetchRandomAnime_bounded zeroTotalWorld 1990 1999 (some 0)).2.2.2.2.2 (by decide)⟩

/-! ## The sampler: random selection and the request variables (C5, C6) -/

/-- Rounding to the nearest integer does not go below an integer lower bound. -/
theorem roundHalfEven_ge (y : ℚ) (a : Int) (h : (a : ℚ) ≤ y) : a ≤ roundHalfEven y := by
  have hf : a ≤ ⌊y⌋ := Int.le_floor.2 h
  unfold roundHalfEven
  simp only
  split_ifs <;> omega

/-- Rounding to the nearest integer does not go above an integer upper bound. -/
theorem roundHalfEven_le (y : ℚ) (b : Int) (h : y ≤ (b : ℚ)) : roundHalfEven y ≤ b := by
  unfold roundHalfEven
  simp only
  by_cases hy : y = b
  · subst hy
    simp
  · have hlt : y < b := lt_of_le_of_ne h hy
    have hf : ⌊y⌋ < b := Int.floor_lt.2 hlt
    split_ifs <;> omega

/-- A value more than one half below an integer rounds below that integer. -/
theorem roundHalfEven_lt (y : ℚ) (b : Int) (h : y < (b : ℚ) - 1 / 2) : roundHalfEven y < b := by
  have hfl : (⌊y⌋ : ℚ) ≤ y := Int.floor_le y
  have hf : ⌊y⌋ < b := Int.floor_lt.2 (by linarith)
  unfold roundHalfEven
  simp only
  by_cases h1 : y - ⌊y⌋ < 1 / 2
  · rw [if_pos h1]; exact hf
  · -- then y ≥ ⌊y⌋ + 1/2, so ⌊y⌋ + 1 ≤ y + 1/2 < b
    have h2 : ((⌊y⌋ + 1 : Int) : ℚ) < b := by
      push_cast
      linarith
    have h3 : ⌊y⌋ + 1 < b := by exact_mod_cast h2
    rw [if_neg h1]
    split_ifs <;> omega

/-- An integer rounds to itself. -/
theorem roundHalfEven_intCast (z : Int) : roundHalfEven (z : ℚ) = z := by
  unfold roundHalfEven
  simp

/-- The double of zero. -/
theorem roundDouble_zero : roundDouble 0 = 0 := if_pos rfl

/-- Below `2^53` the spacing of the doubles around `x > 0` is `1 / 2^j` for a natural `j`, where
`2^52 / 2^j` is the largest power of two not above `x`, or `2^(-1022)` for a smaller `x`. -/
theorem roundDouble_form (x : ℚ) (hx : 0 < x) (h53 : x < 2 ^ 53) :
    ∃ j : ℕ, roundDouble x = roundHalfEven (x * 2 ^ j) / 2 ^ j ∧
      ((2 : ℚ) ^ 52 / 2 ^ j ≤ x ∨ (2 : ℚ) ^ 52 / 2 ^ j = 2 ^ (-1022 : ℤ)) ∧
      x < 2 ^ 53 / 2 ^ j := by
  have hlog : Int.log 2 x < 53 := by
    rw [← Int.lt_zpow_iff_log_lt (by norm_num) hx]
    norm_num
    exact h53
  have hle : (2 : ℚ) ^ Int.log 2 x ≤ x := by
    have := Int.zpow_log_le_self (b := 2) (by norm_num) hx
    simpa using this
  obtain ⟨e, he⟩ : ∃ e, e = max (Int.log 2 x) (-1022) := ⟨_, rfl⟩
  have he52 : e ≤ 52 := by omega
  obtain ⟨j, hj⟩ : ∃ j : ℕ, (j : ℤ) = 52 - e := ⟨(52 - e).toNat, by omega⟩
  have hspacing : (2 : ℚ) ^ (e - 52) = ((2 : ℚ) ^ j)⁻¹ := by
    rw [show e - 52 = -(j : ℤ) by omega, zpow_neg, zpow_natCast]
  have hpow : (2 : ℚ) ^ 52 / 2 ^ j = 2 ^ e := by
    rw [show e = (52 : ℤ) - (j : ℤ) by omega, zpow_sub₀ (by norm_num), zpow_natCast]
    norm_num
  have hlt : x < (2 : ℚ) ^ (Int.log 2 x + 1) := by
    have := Int.lt_zpow_succ_log_self (b := 2) (by norm_num) x
    simpa using this
  have hpow2 : (2 : ℚ) ^ 53 / 2 ^ j = 2 ^ (e + 1) := by
    rw [show e + 1 = (53 : ℤ) - (j : ℤ) by omega, zpow_sub₀ (by norm_num), zpow_natCast]
    norm_num
  refine ⟨j, ?_, ?_, ?_⟩
  · unfold roundDouble
    rw [if_neg hx.ne']
    simp only [abs_of_pos hx]
    rw [← he, hspacing]
    rw [div_inv_eq_mul, div_eq_mul_inv]
  · rw [hpow]
    by_cases hmax : Int.log 2 x ≤ -1022
    · right
      rw [he, max_eq_right hmax]
    · left
      rw [he, max_eq_left (by omega)]
      exact hle
  · rw [hpow2]
    exact lt_of_lt_of_le hlt (zpow_le_zpow_right₀ (by norm_num) (by omega))

/-- Below `2^53` the integers are doubles, so rounding keeps a value between the integers around
it. -/
theorem roundDouble_floor_bounds (x : ℚ) (hx : 0 ≤ x) (h53 : x < 2 ^ 53) :
    (⌊x⌋ : ℚ) ≤ roundDouble x ∧ roundDouble x ≤ (⌊x⌋ : ℚ) + 1 := by
  rcases hx.eq_or_lt with h0 | hpos
  · subst h0
    rw [roundDouble_zero]
    simp
  · obtain ⟨j, hj, _, _⟩ := roundDouble_form x hpos h53
    have hP : (0 : ℚ) < 2 ^ j := by positivity
    rw [hj]
    constructor
    · rw [le_div_iff₀ hP]
      have h := roundHalfEven_ge (x * 2 ^ j) (⌊x⌋ * 2 ^ j) (by
        push_cast
        exact mul_le_mul_of_nonneg_right (Int.floor_le x) hP.le)
      exact_mod_cast h
    · rw [div_le_iff₀ hP]
      have h := roundHalfEven_le (x * 2 ^ j) ((⌊x⌋ + 1) * 2 ^ j) (by
        push_cast
        exact mul_le_mul_of_nonneg_right (Int.lt_floor_add_one x).le hP.le)
      exact_mod_cast h

/-- A product that is at most `n * (1 - 2^(-53))` is rounded to a double below the integer `n`. -/
theorem roundDouble_lt (x : ℚ) (n : Int) (hx : 0 ≤ x) (hn : 1 ≤ n) (hn53 : n ≤ 2 ^ 53)
    (h : x ≤ n * (1 - 1 / 2 ^ 53)) : roundDouble x < n := by
  have hnq : (1 : ℚ) ≤ n := by exact_mod_cast hn
  have hn53q : (n : ℚ) ≤ 2 ^ 53 := by exact_mod_cast hn53
  rcases hx.eq_or_lt with h0 | hpos
  · subst h0
    rw [roundDouble_zero]
    linarith
  · have hxn : x < n := by
      have : (n : ℚ) * (1 - 1 / 2 ^ 53) < n := by nlinarith
      linarith
    obtain ⟨j, hj, hbin, _⟩ := roundDouble_form x hpos (by linarith)
    have hP : (0 : ℚ) < 2 ^ j := by positivity
    have hsmall : (2 : ℚ) ^ 52 / 2 ^ j < n := by
      rcases hbin with hb | hb
      · linarith
      · rw [hb]
        have : (2 : ℚ) ^ (-1022 : ℤ) < 1 := by
          rw [zpow_neg]
          exact inv_lt_one_of_one_lt₀ (by norm_num)
        linarith
    have hsmall' : (2 : ℚ) ^ 52 < n * 2 ^ j := (div_lt_iff₀ hP).1 hsmall
    have hkey : x * 2 ^ j < ((n * 2 ^ j : Int) : ℚ) - 1 / 2 := by
      push_cast
      have h1 : x * 2 ^ j ≤ n * (1 - 1 / 2 ^ 53) * 2 ^ j :=
        mul_le_mul_of_nonneg_right h hP.le
      have h2 : (n : ℚ) * (1 - 1 / 2 ^ 53) * 2 ^ j = n * 2 ^ j - n * 2 ^ j / 2 ^ 53 := by ring
      have h3 : (1 : ℚ) / 2 < n * 2 ^ j / 2 ^ 53 := by
        rw [lt_div_iff₀ (by positivity)]
        norm_num at hsmall' ⊢
        linarith
      linarith
    have hr := roundHalfEven_lt (x * 2 ^ j) (n * 2 ^ j) hkey
    rw [hj, div_lt_iff₀ hP]
    exact_mod_cast hr

/-- The largest double below 1 is `1 - 2^(-53)`. -/
theorem double_lt_one (u : ℚ) (h1 : u < 1) (hd : roundDouble u = u) :
    u ≤ 1 - 1 / 2 ^ 53 := by
  by_contra hcon
  push_neg at hcon
  have hpos : 0 < u := by
    have : (0 : ℚ) < 1 - 1 / 2 ^ 53 := by norm_num
    linarith
  obtain ⟨j, hj, hbin, hup⟩ := roundDouble_form u hpos (by linarith)
  have hP : (0 : ℚ) < 2 ^ j := by positivity
  have hlow : (2 : ℚ) ^ 52 < 2 ^ j := by
    have : (2 : ℚ) ^ 52 / 2 ^ j < 1 := by
      rcases hbin with hb | hb
      · linarith
      · rw [hb, zpow_neg]
        exact inv_lt_one_of_one_lt₀ (by norm_num)
    rwa [div_lt_one hP] at this
  have hhigh : (2 : ℚ) ^ j < 2 ^ 54 := by
    have h2 : (1 : ℚ) / 2 < 2 ^ 53 / 2 ^ j := by
      have : (1 : ℚ) / 2 < 1 - 1 / 2 ^ 53 := by norm_num
      linarith
    rw [lt_div_iff₀ hP] at h2
    norm_num at h2 ⊢
    linarith
  have hj1 : 52 < j := (pow_lt_pow_iff_right₀ (by norm_num : (1 : ℚ) < 2)).1 hlow
  have hj2 : j < 54 := (pow_lt_pow_iff_right₀ (by norm_num : (1 : ℚ) < 2)).1 hhigh
  have hj53 : j = 53 := by omega
  subst hj53
  rw [hd] at hj
  have hK : ((roundHalfEven (u * 2 ^ 53) : Int) : ℚ) = u * 2 ^ 53 := by
    rw [eq_div_iff (by positivity)] at hj
    exact hj.symm
  have hK1 : ((2 ^ 53 - 1 : Int) : ℚ) < (roundHalfEven (u * 2 ^ 53) : Int) := by
    rw [hK]
    push_cast
    have : (1 - 1 / 2 ^ 53 : ℚ) * 2 ^ 53 < u * 2 ^ 53 := mul_lt_mul_of_pos_right hcon (by positivity)
    norm_num at this ⊢
    linarith
  have hK2 : ((roundHalfEven (u * 2 ^ 53) : Int) : ℚ) < ((2 ^ 53 : Int) : ℚ) := by
    rw [hK]
    push_cast
    have : u * 2 ^ 53 < 1 * 2 ^ 53 := mul_lt_mul_of_pos_right h1 (by positivity)
    linarith
  have hK1' : (2 ^ 53 - 1 : Int) < roundHalfEven (u * 2 ^ 53) := by exact_mod_cast hK1
  have hK2' : roundHalfEven (u * 2 ^ 53) < (2 ^ 53 : Int) := by exact_mod_cast hK2
  omega

/-- The interval `[k / n, (k + 1) / n)` lies in `[0, 1]` for `0 ≤ k ≤ n - 1` and has length
`1 / n`. -/
theorem interval_facts (n k : Int) (hn : 1 ≤ n) (hk0 : 0 ≤ k) (hk1 : k ≤ n - 1) :
    (0 : ℚ) ≤ (k : ℚ) / n ∧ ((k : ℚ) + 1) / n ≤ 1 ∧ ((k : ℚ) + 1) / n - (k : ℚ) / n = 1 / n := by
  have hpos : (0 : ℚ) < n := by exact_mod_cast (by omega : (0 : Int) < n)
  refine ⟨div_nonneg (by exact_mod_cast hk0) hpos.le, ?_, by ring⟩
  rw [div_le_one hpos]
  exact_mod_cast (by omega : k + 1 ≤ n)

/-- The product of a draw and a count of at most `2^53` is non-negative and below `2^53`. -/
theorem product_range (u : ℚ) (n : Int) (h0 : 0 ≤ u) (h1 : u < 1) (hn : 1 ≤ n)
    (hn53 : n ≤ 2 ^ 53) : 0 ≤ u * n ∧ u * n < n ∧ u * n < 2 ^ 53 := by
  have hpos : (0 : ℚ) < n := by exact_mod_cast (by omega : (0 : Int) < n)
  have hn53q : (n : ℚ) ≤ 2 ^ 53 := by exact_mod_cast hn53
  have hlt : u * n < n := by nlinarith
  exact ⟨mul_nonneg h0 hpos.le, hlt, by linarith⟩

/-- The selected page lies in `[1, n]`. -/
theorem randomPage_bounds (u : ℚ) (n : Int) (h0 : 0 ≤ u) (h1 : u < 1)
    (hd : roundDouble u = u) (hn : 1 ≤ n) (hn53 : n ≤ 2 ^ 53) :
    1 ≤ randomPage u n ∧ randomPage u n ≤ n := by
  obtain ⟨hx0, _, hx53⟩ := product_range u n h0 h1 hn hn53
  have hpos : (0 : ℚ) < n := by exact_mod_cast (by omega : (0 : Int) < n)
  have hlow := (roundDouble_floor_bounds (u * n) hx0 hx53).1
  have hfl : 0 ≤ ⌊u * (n : ℚ)⌋ := Int.floor_nonneg.2 hx0
  have hrd0 : (0 : ℚ) ≤ roundDouble (u * n) := by
    have : (0 : ℚ) ≤ (⌊u * (n : ℚ)⌋ : ℚ) := by exact_mod_cast hfl
    linarith
  have hup : roundDouble (u * n) < n := by
    apply roundDouble_lt (u * n) n hx0 hn hn53
    rw [mul_comm (n : ℚ)]
    exact mul_le_mul_of_nonneg_right (double_lt_one u h1 hd) hpos.le
  have h1' : 0 ≤ ⌊roundDouble (u * n)⌋ := Int.floor_nonneg.2 hrd0
  have h2' : ⌊roundDouble (u * n)⌋ < n := Int.floor_lt.2 hup
  unfold randomPage
  omega

/-- Page `k` is selected for every draw from `(k - 1) / n` up to `k * (1 - 2^(-53)) / n`. -/
theorem randomPage_of_mem (u : ℚ) (n k : Int) (h0 : 0 ≤ u) (h1 : u < 1) (hn : 1 ≤ n)
    (hn53 : n ≤ 2 ^ 53) (hk1 : 1 ≤ k) (hkn : k ≤ n)
    (hlow : ((k : ℚ) - 1) / n ≤ u) (hup : u ≤ (k : ℚ) * (1 - 1 / 2 ^ 53) / n) :
    randomPage u n = k := by
  obtain ⟨hx0, _, hx53⟩ := product_range u n h0 h1 hn hn53
  have hpos : (0 : ℚ) < n := by exact_mod_cast (by omega : (0 : Int) < n)
  have hlow' : ((k - 1 : Int) : ℚ) ≤ u * n := by
    push_cast
    exact (div_le_iff₀ hpos).1 hlow
  have hup' : u * n ≤ (k : ℚ) * (1 - 1 / 2 ^ 53) := (le_div_iff₀ hpos).1 hup
  have hfl : k - 1 ≤ ⌊u * (n : ℚ)⌋ := Int.le_floor.2 hlow'
  have hge : ((k - 1 : Int) : ℚ) ≤ roundDouble (u * n) := by
    have h := (roundDouble_floor_bounds (u * n) hx0 hx53).1
    have : ((k - 1 : Int) : ℚ) ≤ (⌊u * (n : ℚ)⌋ : ℚ) := by exact_mod_cast hfl
    linarith
  have hlt : roundDouble (u * n) < k :=
    roundDouble_lt (u * n) k hx0 hk1 (by omega) hup'
  have h1' : k - 1 ≤ ⌊roundDouble (u * n)⌋ := Int.le_floor.2 hge
  have h2' : ⌊roundDouble (u * n)⌋ < k := Int.floor_lt.2 hlt
  unfold randomPage
  omega

/-- Page `k` is selected only for draws from `(k - 1) * (1 - 2^(-53)) / n` up to, and not
including, `k / n`. -/
theorem randomPage_only (u : ℚ) (n k : Int) (h0 : 0 ≤ u) (h1 : u < 1)
    (hd : roundDouble u = u) (hn : 1 ≤ n) (hn53 : n ≤ 2 ^ 53) (hk : randomPage u n = k) :
    ((k : ℚ) - 1) * (1 - 1 / 2 ^ 53) / n ≤ u ∧ u < (k : ℚ) / n := by
  obtain ⟨hx0, _, hx53⟩ := product_range u n h0 h1 hn hn53
  have hpos : (0 : ℚ) < n := by exact_mod_cast (by omega : (0 : Int) < n)
  have hb := randomPage_bounds u n h0 h1 hd hn hn53
  rw [hk] at hb
  have hfloor : ⌊roundDouble (u * n)⌋ = k - 1 := by
    unfold randomPage at hk
    omega
  have hrd := Int.floor_eq_iff.1 hfloor
  constructor
  · rw [div_le_iff₀ hpos]
    by_contra hcon
    push_neg at hcon
    by_cases hk1 : k = 1
    · subst hk1
      simp at hcon
      linarith
    · have hlt := roundDouble_lt (u * n) (k - 1) hx0 (by omega) (by omega)
        (by push_cast; exact hcon.le)
      linarith [hrd.1]
  · rw [lt_div_iff₀ hpos]
    by_contra hcon
    push_neg at hcon
    have hfl : k ≤ ⌊u * (n : ℚ)⌋ := Int.le_floor.2 hcon
    have h := (roundDouble_floor_bounds (u * n) hx0 hx53).1
    have : ((k : Int) : ℚ) ≤ (⌊u * (n : ℚ)⌋ : ℚ) := by exact_mod_cast hfl
    have h2 := hrd.2
    push_cast at h2
    linarith

/-- The index is the page number less one. -/
theorem randomIndex_eq (u : ℚ) (m : Nat) : randomIndex u m = randomPage u (m : Int) - 1 := by
  unfold randomIndex randomPage
  rw [Int.cast_natCast]
  omega

/-- The item picked from a non-empty list of at most `2^53` items by a draw is an element of the
list, the one at the selected index. -/
theorem pickItem_mem (media : List Anime) (u : ℚ) (h0 : 0 ≤ u) (h1 : u < 1)
    (hd : roundDouble u = u) (hm : media ≠ []) (hm53 : media.length ≤ 2 ^ 53) :
    ∃ x, pickItem media u = some x ∧ x ∈ media ∧
      media.get? (randomIndex u media.length).toNat = some x := by
  have hlen : 1 ≤ (media.length : Int) := by
    have : 0 < media.length := List.length_pos.2 hm
    omega
  have hb := randomPage_bounds u media.length h0 h1 hd hlen (by exact_mod_cast hm53)
  have hi := randomIndex_eq u media.length
  have hi0 : 0 ≤ randomIndex u media.length := by omega
  have hlt : (randomIndex u media.length).toNat < media.length := by omega
  unfold pickItem
  simp only
  rw [if_pos hi0]
  refine ⟨media.get ⟨_, hlt⟩, ?_, List.get_mem _ _ _, ?_⟩ <;>
    exact List.get?_eq_get hlt

/-- In the binade `[2^e, 2^(e+1))` with `e ≥ -1022` the doubles are spaced `2^(e-52)` apart. -/
theorem roundDouble_binade (x : ℚ) (e : Int) (he : -1022 ≤ e) (h1 : (2 : ℚ) ^ e ≤ x)
    (h2 : x < (2 : ℚ) ^ (e + 1)) :
    roundDouble x = roundHalfEven (x / 2 ^ (e - 52)) * 2 ^ (e - 52) := by
  have hx : 0 < x := lt_of_lt_of_le (by positivity) h1
  have hlog : Int.log 2 x = e := by
    have ha : e ≤ Int.log 2 x := by
      rw [← Int.zpow_le_iff_le_log (by norm_num) hx]
      simpa using h1
    have hb : Int.log 2 x < e + 1 := by
      rw [← Int.lt_zpow_iff_log_lt (by norm_num) hx]
      simpa using h2
    omega
  unfold roundDouble
  rw [if_neg hx.ne']
  simp only [abs_of_pos hx, hlog, max_eq_left he]

/-- A value halfway between two integers rounds to the even one. -/
theorem roundHalfEven_half (f : Int) :
    roundHalfEven ((f : ℚ) + 1 / 2) = if f % 2 = 0 then f else f + 1 := by
  have hfl : ⌊(f : ℚ) + 1 / 2⌋ = f := by
    rw [Int.floor_eq_iff]
    constructor <;> linarith
  unfold roundHalfEven
  simp only [hfl]
  norm_num

/-- The value `boundaryDraw` is a double in `[1/3, 2/3)`. -/
theorem boundaryDraw_double :
    0 ≤ boundaryDraw ∧ boundaryDraw < 1 ∧ roundDouble boundaryDraw = boundaryDraw ∧
    (1 : ℚ) / 3 ≤ boundaryDraw ∧ boundaryDraw < 2 / 3 := by
  refine ⟨by norm_num [boundaryDraw], by norm_num [boundaryDraw], ?_, by norm_num [boundaryDraw],
    by norm_num [boundaryDraw]⟩
  rw [roundDouble_binade boundaryDraw (-1) (by norm_num) (by norm_num [boundaryDraw])
    (by norm_num [boundaryDraw])]
  have hq : boundaryDraw / 2 ^ ((-1 : ℤ) - 52) = ((6004799503160661 : Int) : ℚ) := by
    rw [show ((-1 : ℤ) - 52) = -53 by norm_num, zpow_neg]
    norm_num [boundaryDraw]
  rw [hq, roundHalfEven_intCast]
  rw [show ((-1 : ℤ) - 52) = -53 by norm_num, zpow_neg]
  norm_num [boundaryDraw]

/-- Three times `boundaryDraw` is rounded up to 2. -/
theorem boundaryDraw_times_three : roundDouble (boundaryDraw * 3) = 2 := by
  rw [roundDouble_binade (boundaryDraw * 3) 0 (by norm_num) (by norm_num [boundaryDraw])
    (by norm_num [boundaryDraw])]
  have hq : boundaryDraw * 3 / 2 ^ ((0 : ℤ) - 52) = ((9007199254740991 : Int) : ℚ) + 1 / 2 := by
    rw [show ((0 : ℤ) - 52) = -52 by norm_num, zpow_neg]
    norm_num [boundaryDraw]
  rw [hq, roundHalfEven_half]
  rw [show ((0 : ℤ) - 52) = -52 by norm_num, zpow_neg]
  norm_num

/-- An attempt whose probe passes the checks with page information `info`, `total` not 0, and
whose page fetch passes them with a non-empty media list: the page requested is the one
selected by the first draw of the attempt, and the item returned is the one picked by the
second. -/
theorem tryBody_success (w : World) (s e : Int) (t : Trace) (body1 body2 : ResponseBody)
    (info : PageInfo) (media : List Anime)
    (hg1 : w.gateway t.calls (requestVariables s e 1) = .json body1)
    (he1 : body1.errors = none)
    (hi1 : (body1.data.bind Data.Page).bind Page.pageInfo = some info)
    (ht : info.total ≠ 0)
    (hg2 : w.gateway (t.calls + 1)
      (requestVariables s e (randomPage (w.random t.draws).val info.lastPage)) = .json body2)
    (he2 : body2.errors = none)
    (hm2 : (body2.data.bind Data.Page).bind Page.media = some media)
    (hne : media ≠ []) :
    tryBody w s e t = (.returned (pickItem media (w.random (t.draws + 1)).val),
      ⟨t.requests ++ [requestVariables s e 1,
          requestVariables s e (randomPage (w.random t.draws).val info.lastPage)],
        t.draws + 2, t.outcomes⟩) := by
  cases hp : body1.data.bind Data.Page with
  | none => simp [hp] at hi1
  | some page =>
    simp only [hp, Option.some_bind] at hi1
    have hc : (t.send (requestVariables s e 1)).draw.calls = t.calls + 1 := by
      simp [Trace.send, Trace.draw, Trace.calls]
    cases media with
    | nil => exact absurd rfl hne
    | cons a rest =>
      unfold tryBody
      simp only [hg1, he1, hp, hi1, ht, if_false]
      rw [hc]
      simp only [Trace.send, Trace.draw] at hg2 ⊢
      simp [hg2, he2, hm2]

/-- A run whose first attempt succeeds returns the item picked by the second draw from the page
selected by the first draw, after two calls and no retry. -/
theorem fetchRandomAnime_first_attempt (w : World) (s e : Int) (maxRetries : Option Int)
    (body1 body2 : ResponseBody) (info : PageInfo) (media : List Anime)
    (hN : 1 ≤ maxRetries.getD 5)
    (hg1 : w.gateway 0 (requestVariables s e 1) = .json body1)
    (he1 : body1.errors = none)
    (hi1 : (body1.data.bind Data.Page).bind Page.pageInfo = some info)
    (ht : info.total ≠ 0)
    (hg2 : w.gateway 1
      (requestVariables s e (randomPage (w.random 0).val info.lastPage)) = .json body2)
    (he2 : body2.errors = none)
    (hm2 : (body2.data.bind Data.Page).bind Page.media = some media)
    (hne : media ≠ []) :
    fetchRandomAnime w s e maxRetries = (.returned (pickItem media (w.random 1).val), 0,
      ⟨[requestVariables s e 1,
          requestVariables s e (randomPage (w.random 0).val info.lastPage)],
        2, [.returned (pickItem media (w.random 1).val)]⟩) := by
  have hb := tryBody_success w s e Trace.init body1 body2 info media hg1 he1 hi1 ht hg2 he2 hm2
    hne
  have hlt : ((0 : Nat) : Int) < maxRetries.getD 5 := by omega
  rw [fetchRandomAnime, retryLoop, if_pos hlt, tryBlock, hb]
  rfl

/-- An attempt that returns has passed every check: the page it requested is the one selected by
its first draw, and the item it returns is the one picked by its second draw from the
non-empty media list of that page. -/
theorem tryBody_returned (w : World) (s e : Int) (t : Trace) (item : Option Anime)
    (h : (tryBody w s e t).1 = .returned item) :
    ∃ (body1 : ResponseBody) (info : PageInfo) (body2 : ResponseBody) (media : List Anime),
      w.gateway t.calls (requestVariables s e 1) = .json body1 ∧ body1.errors = none ∧
      (body1.data.bind Data.Page).bind Page.pageInfo = some info ∧ info.total ≠ 0 ∧
      w.gateway (t.calls + 1)
        (requestVariables s e (randomPage (w.random t.draws).val info.lastPage)) =
          .json body2 ∧
      body2.errors = none ∧ (body2.data.bind Data.Page).bind Page.media = some media ∧
      media ≠ [] ∧ item = pickItem media (w.random (t.draws + 1)).val := by
  cases hg1 : w.gateway t.calls (requestVariables s e 1) with
  | rejected err => simp [tryBody, hg1] at h
  | json body1 =>
    cases he1 : body1.errors with
    | some errs => simp [tryBody, hg1, he1] at h
    | none =>
      cases hp : body1.data.bind Data.Page with
      | none => simp [tryBody, hg1, he1, hp] at h
      | some page =>
        cases hi : page.pageInfo with
        | none => simp [tryBody, hg1, he1, hp, hi] at h
        | some info =>
          by_cases ht : info.total = 0
          · simp [tryBody, hg1, he1, hp, hi, ht] at h
          · have hc : (t.send (requestVariables s e 1)).draw.calls = t.calls + 1 := by
              simp [Trace.send, Trace.draw, Trace.calls]
            have hdr : (t.send (requestVariables s e 1)).draws = t.draws := rfl
            unfold tryBody at h
            simp only [hg1, he1, hp, hi, ht, if_false] at h
            rw [hc, hdr] at h
            cases hg2 : w.gateway (t.calls + 1)
                (requestVariables s e (randomPage (w.random t.draws).val info.lastPage)) with
            | rejected err => simp [hg2] at h
            | json body2 =>
              cases he2 : body2.errors with
              | some errs => simp [hg2, he2] at h
              | none =>
                cases hm2 : (body2.data.bind Data.Page).bind Page.media with
                | none => simp [hg2, he2, hm2] at h
                | some media =>
                  cases media with
                  | nil => simp [hg2, he2, hm2] at h
                  | cons a rest =>
                    simp only [hg2, he2, hm2] at h
                    injection h with h
                    refine ⟨body1, info, body2, a :: rest, rfl, he1, ?_, ht, hg2, he2, hm2,
                      by simp, ?_⟩
                    · simp [hp, hi]
                    · rw [← h]
                      rfl

/-- A run that returns an item returns what one of its attempts returned. -/
theorem retryLoop_returned (w : World) (s e N : Int) (item : Option Anime) :
    ∀ (d a : Nat) (t : Trace), (N - a).toNat = d →
      (retryLoop w s e N a t).1 = .returned item →
      ∃ t1, (tryBody w s e t1).1 = .returned item := by
  intro d
  induction d with
  | zero =>
    intro a t hd h
    have hN : ¬ ((a : Int) < N) := by omega
    rw [retryLoop, if_neg hN] at h
    cases h
  | succ d ih =>
    intro a t hd h
    have hN : (a : Int) < N := by omega
    have hd1 : (N - ((a + 1 : Nat) : Int)).toNat = d := by omega
    have hb : (tryBlock w s e t).1 = (tryBody w s e t).1 := rfl
    rw [retryLoop, if_pos hN] at h
    rcases hr : tryBlock w s e t with ⟨o, t1⟩
    rw [hr] at h hb
    cases o with
    | returned item1 =>
      simp only at h hb
      injection h with h
      exact ⟨t, by rw [← hb, h]⟩
    | threw error =>
      simp only at h
      split at h
      · cases h
      · exact ih (a + 1) t1 hd1 h
    | emptyResults p => exact ih (a + 1) t1 hd1 h
    | invalidResponse => exact ih (a + 1) t1 hd1 h

/-- The double `1 / 2`. -/
theorem half_double : roundDouble (1 / 2) = 1 / 2 := by
  rw [roundDouble_binade (1 / 2) (-1) (by norm_num) (by norm_num) (by norm_num)]
  have hq : (1 / 2 : ℚ) / 2 ^ ((-1 : ℤ) - 52) = ((4503599627370496 : Int) : ℚ) := by
    rw [show ((-1 : ℤ) - 52) = -53 by norm_num, zpow_neg]
    norm_num
  rw [hq, roundHalfEven_intCast]
  rw [show ((-1 : ℤ) - 52) = -53 by norm_num, zpow_neg]
  norm_num

/-- C5 (as amended): for every random value `u`, a double with `0 ≤ u < 1`, every
`lastPage = n` with `1 ≤ n ≤ 2^53` and every non-empty media list of length `m ≤ 2^53`: the
selected page `floor(u * n) + 1`, the product being a double product, lies in `[1, n]`; page `k`
is selected for every `u` with `(k - 1) / n ≤ u ≤ k * (1 - 2^(-53)) / n` and only for `u` with
`(k - 1) * (1 - 2^(-53)) / n ≤ u < k / n`, so the set of draws that select it is the interval
`[(k - 1) / n, k / n)`, of length `1 / n` inside `[0, 1]`, up to the rounding of the product
next to its two ends; the selected index `floor(u * m)` lies in `[0, m - 1]`, so the value
returned is an element of the list, and index `i` is selected for every `u` with
`i / m ≤ u ≤ (i + 1) * (1 - 2^(-53)) / m` and only for `u` with
`i * (1 - 2^(-53)) / m ≤ u < (i + 1) / m`. In a run of `fetchRandomAnime` an item is returned
only by an attempt whose page fetch asked for the page selected by the first draw of the attempt
and got a non-empty list, and the item is the one picked from that list by the second draw;
when the first attempt is such an attempt, the run uses the draws 0 and 1 and two calls. -/
theorem random_selection_uniform (u : ℚ) (n : Int) (media : List Anime)
    (h0 : 0 ≤ u) (h1 : u < 1) (hd : roundDouble u = u) (hn : 1 ≤ n) (hn53 : n ≤ 2 ^ 53)
    (hm : media ≠ []) (hm53 : media.length ≤ 2 ^ 53) :
    (1 ≤ randomPage u n ∧ randomPage u n ≤ n) ∧
    (∀ k : Int, 1 ≤ k → k ≤ n → ((k : ℚ) - 1) / n ≤ u →
      u ≤ (k : ℚ) * (1 - 1 / 2 ^ 53) / n → randomPage u n = k) ∧
    (∀ k : Int, randomPage u n = k →
      ((k : ℚ) - 1) * (1 - 1 / 2 ^ 53) / n ≤ u ∧ u < (k : ℚ) / n) ∧
    (∀ k : Int, 1 ≤ k → k ≤ n →
      (0 : ℚ) ≤ ((k : ℚ) - 1) / n ∧ (k : ℚ) / n ≤ 1 ∧ (k : ℚ) / n - ((k : ℚ) - 1) / n = 1 / n) ∧
    (0 ≤ randomIndex u media.length ∧ randomIndex u media.length ≤ (media.length : Int) - 1) ∧
    (∃ x, pickItem media u = some x ∧ x ∈ media ∧
      media.get? (randomIndex u media.length).toNat = some x) ∧
    (∀ i : Int, 0 ≤ i → i ≤ (media.length : Int) - 1 → (i : ℚ) / media.length ≤ u →
      u ≤ ((i : ℚ) + 1) * (1 - 1 / 2 ^ 53) / media.length → randomIndex u media.length = i) ∧
    (∀ i : Int, randomIndex u media.length = i →
      (i : ℚ) * (1 - 1 / 2 ^ 53) / media.length ≤ u ∧ u < ((i : ℚ) + 1) / media.length) ∧
    (∀ i : Int, 0 ≤ i → i ≤ (media.length : Int) - 1 →
      (0 : ℚ) ≤ (i : ℚ) / media.length ∧ ((i : ℚ) + 1) / media.length ≤ 1 ∧
      ((i : ℚ) + 1) / media.length - (i : ℚ) / media.length = 1 / media.length) ∧
    (∀ (w : World) (startYear endYear : Int) (maxRetries : Option Int) (item : Option Anime),
      (fetchRandomAnime w startYear endYear maxRetries).1 = .returned item →
      ∃ (t : Trace) (body1 : ResponseBody) (info : PageInfo) (body2 : ResponseBody)
          (fetched : List Anime),
        w.gateway t.calls (requestVariables startYear endYear 1) = .json body1 ∧
        body1.errors = none ∧
        (body1.data.bind Data.Page).bind Page.pageInfo = some info ∧ info.total ≠ 0 ∧
        w.gateway (t.calls + 1) (requestVariables startYear endYear
          (randomPage (w.random t.draws).val info.lastPage)) = .json body2 ∧
        body2.errors = none ∧ (body2.data.bind Data.Page).bind Page.media = some fetched ∧
        fetched ≠ [] ∧ item = pickItem fetched (w.random (t.draws + 1)).val) ∧
    (∀ (w : World) (startYear endYear : Int) (maxRetries : Option Int)
        (body1 body2 : ResponseBody) (info : PageInfo) (fetched : List Anime),
      1 ≤ maxRetries.getD 5 →
      w.gateway 0 (requestVariables startYear endYear 1) = .json body1 →
      body1.errors = none →
      (body1.data.bind Data.Page).bind Page.pageInfo = some info → info.total ≠ 0 →
      w.gateway 1 (requestVariables startYear endYear
        (randomPage (w.random 0).val info.lastPage)) = .json body2 →
      body2.errors = none → (body2.data.bind Data.Page).bind Page.media = some fetched →
      fetched ≠ [] →
      fetchRandomAnime w startYear endYear maxRetries =
        (.returned (pickItem fetched (w.random 1).val), 0,
          ⟨[requestVariables startYear endYear 1,
              requestVariables startYear endYear (randomPage (w.random 0).val info.lastPage)],
            2, [.returned (pickItem fetched (w.random 1).val)]⟩)) := by
  have hlen : 1 ≤ (media.length : Int) := by
    have : 0 < media.length := List.length_pos.2 hm
    omega
  have hlen53 : (media.length : Int) ≤ 2 ^ 53 := by exact_mod_cast hm53
  have hcast : (((media.length : Int) : ℚ)) = (media.length : ℚ) := by norm_cast
  have hidx := randomIndex_eq u media.length
  have hb := randomPage_bounds u media.length h0 h1 hd hlen hlen53
  refine ⟨randomPage_bounds u n h0 h1 hd hn hn53,
    fun k hk1 hkn hlow hup => randomPage_of_mem u n k h0 h1 hn hn53 hk1 hkn hlow hup,
    fun k hk => randomPage_only u n k h0 h1 hd hn hn53 hk, ?_, by omega,
    pickItem_mem media u h0 h1 hd hm hm53, ?_, ?_, ?_, ?_,
    fun w startYear endYear maxRetries body1 body2 info fetched hN hg1 he1 hi1 ht hg2 he2 hm2
        hne =>
      fetchRandomAnime_first_attempt w startYear endYear maxRetries body1 body2 info fetched hN
        hg1 he1 hi1 ht hg2 he2 hm2 hne⟩
  · intro k hk0 hk1
    have := interval_facts n (k - 1) hn (by omega) (by omega)
    push_cast at this
    simpa using this
  · intro i hi0 hi1 hlow hup
    have h := randomPage_of_mem u media.length (i + 1) h0 h1 hlen hlen53 (by omega) (by omega)
      (by push_cast; simpa using hlow) (by push_cast; exact hup)
    omega
  · intro i hi
    have h := randomPage_only u media.length (i + 1) h0 h1 hd hlen hlen53 (by omega)
    push_cast at h
    simpa using h
  · intro i hi0 hi1
    have := interval_facts media.length i hlen hi0 hi1
    rw [hcast] at this
    exact this
  · intro w startYear endYear maxRetries item hret
    obtain ⟨t, ht⟩ := retryLoop_returned w startYear endYear (maxRetries.getD 5) item _ 0
      Trace.init rfl hret
    exact ⟨t, tryBody_returned w startYear endYear t item ht⟩

/-- The amended C5 at `u = 1/2`, ten pages and a one-element list: page 6 is selected; and the
run against `onePageWorld`, whose first attempt returns. -/
theorem random_selection_uniform_witness :
    ((0 : ℚ) ≤ 1 / 2 ∧ (1 / 2 : ℚ) < 1 ∧ roundDouble (1 / 2) = 1 / 2) ∧
    randomPage (1 / 2) 10 = 6 ∧
    fetchRandomAnime onePageWorld 1990 1999 none =
      (.returned (pickItem [sampleAnime] 0), 0,
        ⟨[requestVariables 1990 1999 1, requestVariables 1990 1999 (randomPage 0 1)], 2,
          [.returned (pickItem [sampleAnime] 0)]⟩) :=
  ⟨⟨by norm_num, by norm_num, half_double⟩,
    (random_selection_uniform (1 / 2) 10 [sampleAnime] (by norm_num) (by norm_num) half_double
      (by norm_num) (by norm_num) (by simp) (by simp)).2.1 6 (by norm_num) (by norm_num)
      (by norm_num) (by norm_num),
    (random_selection_uniform (1 / 2) 10 [sampleAnime] (by norm_num) (by norm_num) half_double
      (by norm_num) (by norm_num) (by simp) (by simp)).2.2.2.2.2.2.2.2.2.2 onePageWorld 1990 1999
      none (pageBody 1 1 [sampleAnime]) (pageBody 1 1 [sampleAnime]) ⟨1, 1⟩ [sampleAnime]
      (by decide) rfl rfl rfl (by decide) rfl rfl rfl (by simp)⟩

/-- C5, counterexample: `boundaryDraw` is a double with `1/3 ≤ u < 2/3`, yet with three pages the
code selects page 3, not page 2, and with three items index 2, not index 1: the product
`u * 3` is rounded up to `2` before `Math.floor` is applied. -/
theorem boundary_draw_selects_next_page :
    (0 ≤ boundaryDraw ∧ boundaryDraw < 1 ∧ roundDouble boundaryDraw = boundaryDraw) ∧
    (((2 : ℚ) - 1) / 3 ≤ boundaryDraw ∧ boundaryDraw < 2 / 3) ∧
    randomPage boundaryDraw 3 = 3 ∧ randomIndex boundaryDraw 3 = 2 ∧
    ¬ (randomPage boundaryDraw 3 = 2 ↔
      ((2 : ℚ) - 1) / 3 ≤ boundaryDraw ∧ boundaryDraw < 2 / 3) := by
  obtain ⟨b0, b1, bd, b3, b4⟩ := boundaryDraw_double
  have hpage : randomPage boundaryDraw 3 = 3 := by
    unfold randomPage
    rw [show ((3 : Int) : ℚ) = 3 by norm_num, boundaryDraw_times_three]
    norm_num
  have hidx : randomIndex boundaryDraw 3 = 2 := by
    unfold randomIndex
    rw [show ((3 : Nat) : ℚ) = 3 by norm_num, boundaryDraw_times_three]
    norm_num
  have hin : ((2 : ℚ) - 1) / 3 ≤ boundaryDraw := by norm_num; linarith
  refine ⟨⟨b0, b1, bd⟩, ⟨hin, b4⟩, hpage, hidx, ?_⟩
  intro hiff
  have := hiff.2 ⟨hin, b4⟩
  rw [hpage] at this
  exact absurd this (by decide)

/-- The two date variables, evaluated for each year from 1960 to 2025. -/
theorem fuzzyDate_table : ∀ i : Fin 66,
    parseInt (toString ((1960 + i.val : Nat) : Int) ++ "0101") =
      some (((1960 + i.val : Nat) : Int) * 10000 + 101) ∧
    parseInt (toString ((1960 + i.val : Nat) : Int) ++ "1231") =
      some (((1960 + i.val : Nat) : Int) * 10000 + 1231) := by
  decide

/-- The two date variables for a year in `[1960, 2025]`. -/
theorem fuzzyDate_of_year (y : Int) (h1 : 1960 ≤ y) (h2 : y ≤ 2025) :
    parseInt (toString y ++ "0101") = some (y * 10000 + 101) ∧
    parseInt (toString y ++ "1231") = some (y * 10000 + 1231) := by
  have h := fuzzyDate_table ⟨(y - 1960).toNat, by omega⟩
  have hy : ((1960 + (y - 1960).toNat : Nat) : Int) = y := by omega
  simp only [hy] at h
  exact h

/-- Every request sent by an attempt is built by `requestVariables` for the same years. -/
theorem tryBlock_requests_mem (w : World) (s e : Int) (t : Trace) (v : Variables)
    (hv : v ∈ (tryBlock w s e t).2.requests) :
    v ∈ t.requests ∨ ∃ p, v = requestVariables s e p := by
  have hreq : (tryBlock w s e t).2.requests = (tryBody w s e t).2.requests := rfl
  rw [hreq] at hv
  rcases tryBody_requests w s e t with h | ⟨p, h⟩
  · rw [h, List.mem_append, List.mem_singleton] at hv
    exact hv.imp id fun h => ⟨1, h⟩
  · rw [h, List.mem_append] at hv
    rcases hv with hv | hv
    · exact Or.inl hv
    · simp only [List.mem_cons, List.mem_singleton, List.not_mem_nil, or_false] at hv
      rcases hv with rfl | rfl
      · exact Or.inr ⟨1, rfl⟩
      · exact Or.inr ⟨p, rfl⟩

/-- Every request sent by the loop is built by `requestVariables` for the same years. -/
theorem retryLoop_requests_mem (w : World) (s e N : Int) :
    ∀ (d a : Nat) (t : Trace), (N - a).toNat = d →
      ∀ v ∈ (retryLoop w s e N a t).2.2.requests,
        v ∈ t.requests ∨ ∃ p, v = requestVariables s e p := by
  intro d
  induction d with
  | zero =>
    intro a t hd v hv
    have hN : ¬ ((a : Int) < N) := by omega
    rw [retryLoop, if_neg hN] at hv
    exact Or.inl hv
  | succ d ih =>
    intro a t hd v hv
    have hN : (a : Int) < N := by omega
    have hd1 : (N - ((a + 1 : Nat) : Int)).toNat = d := by omega
    have hb := tryBlock_requests_mem w s e t v
    have hstep : v ∈ (retryLoop w s e N (a + 1) (tryBlock w s e t).2).2.2.requests →
        v ∈ t.requests ∨ ∃ p, v = requestVariables s e p := fun h =>
      (ih (a + 1) _ hd1 v h).elim hb Or.inr
    rw [retryLoop, if_pos hN] at hv
    rcases hr : tryBlock w s e t with ⟨o, t1⟩
    rw [hr] at hv hb hstep
    cases o with
    | returned item => exact hb hv
    | threw error =>
      simp only at hv
      split at hv
      · exact hb hv
      · exact hstep hv
    | emptyResults p => exact hstep hv
    | invalidResponse => exact hstep hv

/-- C6: for every `startYear ≤ endYear`, both in `[1960, 2025]`, the requests sent by one
attempt of `fetchRandomAnime` are the count probe, for page 1, followed by at most one page
fetch; every one of them carries `startDate = startYear * 10000 + 101`,
`endDate = endYear * 10000 + 1231` and `perPage = 50`, and so does every request of a whole
run; both dates are 8-digit integers, of the form `YYYY0101` and `YYYY1231`, and
`startDate < endDate`. -/
theorem attempt_requests_carry_filter (w : World) (startYear endYear : Int) (t : Trace)
    (h1 : 1960 ≤ startYear) (h2 : startYear ≤ endYear) (h3 : endYear ≤ 2025) :
    (∃ rs, (tryBlock w startYear endYear t).2.requests = t.requests ++ rs ∧
      (rs = [requestVariables startYear endYear 1] ∨
        ∃ p, rs = [requestVariables startYear endYear 1, requestVariables startYear endYear p]) ∧
      rs.head?.map Variables.page = some 1 ∧
      ∀ v ∈ rs, v.startDate = some (startYear * 10000 + 101) ∧
        v.endDate = some (endYear * 10000 + 1231) ∧ v.perPage = 50) ∧
    (∀ maxRetries, ∀ v ∈ (fetchRandomAnime w startYear endYear maxRetries).2.2.requests,
      v.startDate = some (startYear * 10000 + 101) ∧
        v.endDate = some (endYear * 10000 + 1231) ∧ v.perPage = 50) ∧
    (10000000 ≤ startYear * 10000 + 101 ∧ startYear * 10000 + 101 < 100000000) ∧
    (10000000 ≤ endYear * 10000 + 1231 ∧ endYear * 10000 + 1231 < 100000000) ∧
    startYear * 10000 + 101 < endYear * 10000 + 1231 ∧
    ((startYear * 10000 + 101) / 10000 = startYear ∧ (startYear * 10000 + 101) % 10000 = 101) ∧
    ((endYear * 10000 + 1231) / 10000 = endYear ∧ (endYear * 10000 + 1231) % 10000 = 1231) := by
  have hs := (fuzzyDate_of_year startYear h1 (by omega)).1
  have he := (fuzzyDate_of_year endYear (by omega) h3).2
  have hv : ∀ p, (requestVariables startYear endYear p).startDate =
        some (startYear * 10000 + 101) ∧
      (requestVariables startYear endYear p).endDate = some (endYear * 10000 + 1231) ∧
      (requestVariables startYear endYear p).perPage = 50 := fun p => ⟨hs, he, rfl⟩
  refine ⟨?_, ?_, by omega, by omega, by omega, by omega, by omega⟩
  swap
  · intro maxRetries v hv1
    rcases retryLoop_requests_mem w startYear endYear (maxRetries.getD 5) _ 0 Trace.init rfl v
      hv1 with h | ⟨p, rfl⟩
    · cases h
    · exact hv p
  have hreq : (tryBlock w startYear endYear t).2.requests =
      (tryBody w startYear endYear t).2.requests := rfl
  rw [hreq]
  rcases tryBody_requests w startYear endYear t with h | ⟨p, h⟩
  · refine ⟨_, h, Or.inl rfl, rfl, ?_⟩
    intro v hv1
    rw [List.mem_singleton.1 hv1]
    exact hv 1
  · refine ⟨_, h, Or.inr ⟨p, rfl⟩, rfl, ?_⟩
    intro v hv1
    simp only [List.mem_cons, List.mem_singleton, List.not_mem_nil, or_false] at hv1
    rcases hv1 with rfl | rfl
    · exact hv 1
    · exact hv p

/-- C6 for the range 1990-1999. -/
theorem attempt_requests_carry_filter_witness :
    (1960 ≤ (1990 : Int) ∧ (1990 : Int) ≤ 1999 ∧ (1999 : Int) ≤ 2025) ∧
    requestVariables 1990 1999 1 = ⟨some 19900101, some 19991231, 1, 50⟩ ∧
    (1990 : Int) * 10000 + 101 < 1999 * 10000 + 1231 :=
  ⟨by decide, by decide, (attempt_requests_carry_filter emptyPageWorld 1990 1999 Trace.init
    (by decide) (by decide) (by decide)).2.2.2.2.1⟩

/-! ## The timeline (C7-C9) -/

/-- The comparator orders by the sort key. -/
theorem compareYear_le_iff (a b : TimelineEntry) : compareYear a b ≤ 0 ↔ sortYear a ≤ sortYear b := by
  unfold compareYear; omega

/-- Sorting permutes the entries. -/
theorem sortByYear_perm (l : List TimelineEntry) : (sortByYear l).Perm l :=
  List.perm_insertionSort _ l

/-- The sorted entries are in ascending order of the sort key. -/
theorem sortByYear_sorted (l : List TimelineEntry) :
    (sortByYear l).Pairwise fun a b => sortYear a ≤ sortYear b := by
  haveI : IsTotal TimelineEntry (fun a b => compareYear a b ≤ 0) :=
    ⟨fun a b => by simp only [compareYear_le_iff]; exact le_total _ _⟩
  haveI : IsTrans TimelineEntry (fun a b => compareYear a b ≤ 0) :=
    ⟨fun a b c => by simp only [compareYear_le_iff]; exact le_trans⟩
  have h := List.sorted_insertionSort (fun a b : TimelineEntry => compareYear a b ≤ 0) l
  exact List.Pairwise.imp (fun {a b} hab => (compareYear_le_iff a b).1 hab) h

/-- Sorting keeps the entries of each sort key in their original order. -/
theorem sortByYear_stable (l : List TimelineEntry) (k : Int) :
    (sortByYear l).filter (fun a => sortYear a = k) = l.filter (fun a => sortYear a = k) := by
  have hsub : List.Sublist (l.filter (fun a => sortYear a = k)) (sortByYear l) := by
    apply List.sublist_insertionSort
    · rw [List.pairwise_iff_forall_sublist]
      intro a b hab
      have ha := hab.subset (List.mem_cons_self _ _)
      have hb := hab.subset (List.mem_cons_of_mem _ (List.mem_cons_self _ _))
      simp only [List.mem_filter, decide_eq_true_eq] at ha hb
      rw [compareYear_le_iff, ha.2, hb.2]
    · exact List.filter_sublist l
  have hsub2 := hsub.filter (fun a => decide (sortYear a = k))
  rw [List.filter_filter] at hsub2
  simp only [Bool.and_self] at hsub2
  have hlen := ((sortByYear_perm l).filter (fun a => decide (sortYear a = k))).length_eq
  exact (hsub2.eq_of_length hlen.symm).symm

/-- For years that are non-zero and below 9999 the sort key orders entries as the release
year does, unknown years last. -/
theorem sortYear_le_iff (a b : TimelineEntry)
    (ha : ∀ y, a.startDate.bind FuzzyDate.year = some y → y ≠ 0 ∧ y < 9999)
    (hb : ∀ y, b.startDate.bind FuzzyDate.year = some y → y ≠ 0 ∧ y < 9999) :
    (sortYear a ≤ sortYear b ↔ releaseYear a ≤ releaseYear b) ∧
    (sortYear a = sortYear b ↔ releaseYear a = releaseYear b) := by
  unfold sortYear releaseYear
  cases hya : a.startDate.bind FuzzyDate.year with
  | none =>
    cases hyb : b.startDate.bind FuzzyDate.year with
    | none => simp
    | some y =>
      have := hb y hyb
      simp only [this.1, if_false, top_le_iff, WithTop.coe_ne_top]
      constructor <;> constructor <;> intro h
      · omega
      · exact absurd h (by simp)
      · omega
      · exact absurd h.symm (by simp)
  | some x =>
    have hx := ha x hya
    cases hyb : b.startDate.bind FuzzyDate.year with
    | none =>
      simp only [hx.1, if_false, le_top, iff_true]
      refine ⟨by omega, ?_⟩
      constructor <;> intro h
      · omega
      · exact absurd h (by simp)
    | some y =>
      have hy := hb y hyb
      simp only [hx.1, hy.1, if_false, WithTop.coe_le_coe, WithTop.coe_eq_coe]
      simp


/-- The cards and the message of a timeline view. -/
theorem buildTimeline_cards (anime : TimelineMedia) (cards : List TimelineCard) (msg : String)
    (h : buildTimeline anime = .timeline cards msg) :
    cards = (sortByYear (allAnime anime)).map createTimelineCard ∧
    msg = "Found " ++ toString (relevantRelations anime.edges).length ++
      " related anime in this series" ∧
    (relevantRelations anime.edges).length ≠ 0 := by
  unfold buildTimeline at h
  simp only at h
  split at h
  · simp [displayNoRelations] at h
  · rename_i hne
    injection h with h1 h2
    exact ⟨h1.symm, h2.symm, hne⟩

/-- C7 (as amended): for every list of timeline entries, the order in which `buildTimeline`
displays them is a permutation of the entries, sorted ascending by the sort key
`year || 9999` (the release year, and 9999 when the year is unknown or 0), entries with equal
keys keeping their original relative order; hence, whenever every known year is non-zero and
below 9999, the order is ascending by release year with every entry of unknown year after
every entry of known year (as if its year were +infinity) and entries of equal year, or both
unknown, in their original relative order; e.g. years `[2020, unknown, 2010]` are displayed as
`[2010, 2020, unknown]`. -/
theorem timeline_sorted_by_year (entries : List TimelineEntry) :
    (sortByYear entries).Perm entries ∧
    (sortByYear entries).Pairwise (fun a b => sortYear a ≤ sortYear b) ∧
    (∀ k : Int, (sortByYear entries).filter (fun a => sortYear a = k) =
      entries.filter (fun a => sortYear a = k)) ∧
    ((∀ a ∈ entries, ∀ y, a.startDate.bind FuzzyDate.year = some y → y ≠ 0 ∧ y < 9999) →
      (sortByYear entries).Pairwise (fun a b => releaseYear a ≤ releaseYear b) ∧
      ∀ k : WithTop Int, (sortByYear entries).filter (fun a => releaseYear a = k) =
        entries.filter (fun a => releaseYear a = k)) ∧
    (∀ anime cards msg, buildTimeline anime = .timeline cards msg →
      cards = (sortByYear (allAnime anime)).map createTimelineCard) ∧
    (sortByYear [entryOfYear 1 (some 2020) "SEQUEL", entryOfYear 2 none "SEQUEL",
        entryOfYear 3 (some 2010) "PREQUEL"]).map releaseYear = [2010, 2020, ⊤] := by
  refine ⟨sortByYear_perm entries, sortByYear_sorted entries, sortByYear_stable entries, ?_,
    fun anime cards msg h => (buildTimeline_cards anime cards msg h).1, by decide⟩
  intro hy
  have hy2 : ∀ a ∈ sortByYear entries, ∀ y,
      a.startDate.bind FuzzyDate.year = some y → y ≠ 0 ∧ y < 9999 :=
    fun a ha => hy a ((sortByYear_perm entries).mem_iff.1 ha)
  constructor
  · rw [List.pairwise_iff_forall_sublist]
    intro a b hab
    have hs := List.pairwise_iff_forall_sublist.1 (sortByYear_sorted entries) hab
    have ha := hab.subset (List.mem_cons_self _ _)
    have hb := hab.subset (List.mem_cons_of_mem _ (List.mem_cons_self _ _))
    exact (sortYear_le_iff a b (hy2 a ha) (hy2 b hb)).1.1 hs
  · intro k
    by_cases hex : ∃ c ∈ entries, releaseYear c = k
    · obtain ⟨c, hc, rfl⟩ := hex
      have e1 : (sortByYear entries).filter (fun a => releaseYear a = releaseYear c) =
          (sortByYear entries).filter (fun a => sortYear a = sortYear c) := by
        apply List.filter_congr
        intro a ha
        simp only [decide_eq_decide]
        exact (sortYear_le_iff a c (hy2 a ha) (hy c hc)).2.symm
      have e2 : entries.filter (fun a => releaseYear a = releaseYear c) =
          entries.filter (fun a => sortYear a = sortYear c) := by
        apply List.filter_congr
        intro a ha
        simp only [decide_eq_decide]
        exact (sortYear_le_iff a c (hy a ha) (hy c hc)).2.symm
      rw [e1, e2]
      exact sortByYear_stable entries _
    · have n1 : entries.filter (fun a => releaseYear a = k) = [] := by
        rw [List.filter_eq_nil_iff]
        intro a ha
        simp only [decide_eq_true_eq]
        exact fun h => hex ⟨a, ha, h⟩
      have n2 : (sortByYear entries).filter (fun a => releaseYear a = k) = [] := by
        rw [List.filter_eq_nil_iff]
        intro a ha
        simp only [decide_eq_true_eq]
        exact fun h => hex ⟨a, (sortByYear_perm entries).mem_iff.1 ha, h⟩
      rw [n1, n2]

/-- The amended C7 on the entries with years `[2020, unknown]`. -/
theorem timeline_sorted_by_year_witness :
    (sortByYear [entryOfYear 1 (some 2020) "SEQUEL", entryOfYear 2 none "SEQUEL"]).Pairwise
      (fun a b => releaseYear a ≤ releaseYear b) :=
  ((timeline_sorted_by_year
    [entryOfYear 1 (some 2020) "SEQUEL", entryOfYear 2 none "SEQUEL"]).2.2.2.1
    (by decide)).1

/-- C7, counterexample: for a subject of year 10000 with one sequel of unknown year, the sequel
is displayed before the subject: an entry of unknown year precedes an entry of known year, and
the displayed order is not ascending when unknown counts as +infinity. -/
theorem unknown_year_before_year_10000 :
    buildTimeline farFutureSubject =
      .timeline [⟨false, none, "Unknown", "Unknown", some "Sequel", 2⟩,
        ⟨true, none, "10000", "Unknown", none, 1⟩] "Found 1 related anime in this series" ∧
    sortByYear (allAnime farFutureSubject) =
      [entryOfYear 2 none "SEQUEL", ⟨nodeOfYear 1 (some 10000), "CURRENT", true⟩] ∧
    ¬ (sortByYear (allAnime farFutureSubject)).Pairwise
      (fun a b => releaseYear a ≤ releaseYear b) := by
  decide

/-- Membership in the array literal of line 96. -/
theorem mem_relevantTypes_iff (t : String) :
    relevantTypes.contains t = true ↔
      t ∈ ["SEQUEL", "PREQUEL", "SIDE_STORY", "ALTERNATIVE", "PARENT", "SPIN_OFF"] := by
  simp [relevantTypes]

/-- The edges kept by the filter. -/
theorem mem_relevantRelations (edges : List RelationEdge) (e : RelationEdge) :
    e ∈ relevantRelations edges ↔ e ∈ edges ∧
      e.relationType ∈ ["SEQUEL", "PREQUEL", "SIDE_STORY", "ALTERNATIVE", "PARENT", "SPIN_OFF"] := by
  rw [relevantRelations, List.mem_filter, mem_relevantTypes_iff]

/-- Each relevant kind has its label in the table and differs from `CURRENT`. -/
theorem relevantTypes_labelled :
    ∀ ty ∈ ["SEQUEL", "PREQUEL", "SIDE_STORY", "ALTERNATIVE", "PARENT", "SPIN_OFF"],
      (ty, formatRelationType ty) ∈ relationLabels ∧ ty ≠ "CURRENT" := by
  decide

/-- C8: for every list of relation edges, the edges kept by `buildTimeline` are exactly the
edges whose `relationType` is one of SEQUEL, PREQUEL, SIDE_STORY, ALTERNATIVE, PARENT, SPIN_OFF,
in their original order and with their multiplicities; every other edge, such as one of type
"CHARACTER", is dropped; and the card of each kept edge carries the badge
`formatRelationType(relationType)`, which is the human-readable name of its kind ("Sequel",
"Prequel", "Side Story", "Alternative", "Parent Story", "Spin-off"). -/
theorem relevant_relations_kept (edges : List RelationEdge) :
    List.Sublist (relevantRelations edges) edges ∧
    (∀ e, e ∈ relevantRelations edges ↔ e ∈ edges ∧
      e.relationType ∈ ["SEQUEL", "PREQUEL", "SIDE_STORY", "ALTERNATIVE", "PARENT", "SPIN_OFF"]) ∧
    (∀ e, e.relationType ∈ ["SEQUEL", "PREQUEL", "SIDE_STORY", "ALTERNATIVE", "PARENT", "SPIN_OFF"] →
      (relevantRelations edges).count e = edges.count e) ∧
    (∀ e ∈ edges, e.relationType = "CHARACTER" → e ∉ relevantRelations edges) ∧
    (∀ e ∈ relevantRelations edges,
      (e.relationType, formatRelationType e.relationType) ∈ relationLabels ∧
      (createTimelineCard ⟨e.node, e.relationType, false⟩).badge =
        some (formatRelationType e.relationType)) ∧
    relationLabels.map (fun p => formatRelationType p.1) = relationLabels.map (fun p => p.2) ∧
    relevantRelations [⟨"CHARACTER", nodeOfYear 1 none⟩, ⟨"SEQUEL", nodeOfYear 2 none⟩] =
      [⟨"SEQUEL", nodeOfYear 2 none⟩] ∧
    formatRelationType "SEQUEL" = "Sequel" := by
  refine ⟨List.filter_sublist edges, mem_relevantRelations edges, ?_, ?_, ?_, by decide,
    by decide, by decide⟩
  · intro e he
    rw [relevantRelations, List.count_filter]
    exact (mem_relevantTypes_iff _).2 he
  · intro e _ hc hmem
    have := ((mem_relevantRelations edges e).1 hmem).2
    rw [hc] at this
    revert this
    decide
  · intro e he
    have h := ((mem_relevantRelations edges e).1 he).2
    have hl := relevantTypes_labelled e.relationType h
    exact ⟨hl.1, if_pos hl.2⟩

/-- C8 on the edges `[CHARACTER, SEQUEL]`: the sequel is kept once. -/
theorem relevant_relations_kept_witness :
    (relevantRelations [⟨"CHARACTER", nodeOfYear 1 none⟩, ⟨"SEQUEL", nodeOfYear 2 none⟩]).count
      ⟨"SEQUEL", nodeOfYear 2 none⟩ = 1 :=
  ((relevant_relations_kept
    [⟨"CHARACTER", nodeOfYear 1 none⟩, ⟨"SEQUEL", nodeOfYear 2 none⟩]).2.2.1
    ⟨"SEQUEL", nodeOfYear 2 none⟩ (by decide)).trans (by decide)

/-- The unsorted entry list has one current entry, one entry tagged `CURRENT` and one entry
per relevant edge besides. -/
theorem allAnime_counts (anime : TimelineMedia) :
    (allAnime anime).countP (fun x => x.isCurrent) = 1 ∧
    (allAnime anime).countP (fun x => x.relationType = "CURRENT") = 1 ∧
    (allAnime anime).length = (relevantRelations anime.edges).length + 1 := by
  unfold allAnime
  refine ⟨?_, ?_, by simp⟩
  · rw [List.countP_cons_of_pos _ _ (by rfl), List.countP_eq_zero.2]
    intro x hx
    obtain ⟨e, _, rfl⟩ := List.mem_map.1 hx
    simp
  · rw [List.countP_cons_of_pos _ _ (by simp), List.countP_eq_zero.2]
    intro x hx
    obtain ⟨e, he, rfl⟩ := List.mem_map.1 hx
    have h := ((mem_relevantRelations anime.edges e).1 he).2
    simpa using (relevantTypes_labelled e.relationType h).2

/-- C9: for every subject and edge list, `buildTimeline` produces the "standalone series"
notice if and only if no edge has a relevant relation type, and a timeline if and only if some
edge has one; in a timeline the cards are those of the sorted entry list, which is a
permutation of one entry for the subject (relationType CURRENT, isCurrent true) followed by
one entry per relevant edge (its node, its relationType, isCurrent false); exactly one entry is
current, exactly one is tagged CURRENT, and the count in the message is the number of relevant
edges, the number of entries minus one. -/
theorem buildTimeline_standalone_iff (anime : TimelineMedia) :
    ((∃ title msg, buildTimeline anime = .noRelations title msg) ↔
      ∀ e ∈ anime.edges, e.relationType ∉
        ["SEQUEL", "PREQUEL", "SIDE_STORY", "ALTERNATIVE", "PARENT", "SPIN_OFF"]) ∧
    ((∃ cards msg, buildTimeline anime = .timeline cards msg) ↔
      ∃ e ∈ anime.edges, e.relationType ∈
        ["SEQUEL", "PREQUEL", "SIDE_STORY", "ALTERNATIVE", "PARENT", "SPIN_OFF"]) ∧
    (∀ cards msg, buildTimeline anime = .timeline cards msg →
      cards = (sortByYear (allAnime anime)).map createTimelineCard ∧
      (sortByYear (allAnime anime)).Perm
        (⟨anime.toMediaNode, "CURRENT", true⟩ ::
          (relevantRelations anime.edges).map fun e => ⟨e.node, e.relationType, false⟩) ∧
      (sortByYear (allAnime anime)).countP (fun x => x.isCurrent) = 1 ∧
      (sortByYear (allAnime anime)).countP (fun x => x.relationType = "CURRENT") = 1 ∧
      cards.countP (fun c => c.current) = 1 ∧
      cards.length = (relevantRelations anime.edges).length + 1 ∧
      msg = "Found " ++ toString (relevantRelations anime.edges).length ++
        " related anime in this series" ∧
      msg = "Found " ++ toString (cards.length - 1) ++ " related anime in this series") := by
  have hnil : (relevantRelations anime.edges).length = 0 ↔
      ∀ e ∈ anime.edges, e.relationType ∉
        ["SEQUEL", "PREQUEL", "SIDE_STORY", "ALTERNATIVE", "PARENT", "SPIN_OFF"] := by
    rw [List.length_eq_zero, List.eq_nil_iff_forall_not_mem]
    constructor
    · intro h e he hty
      exact h e ((mem_relevantRelations anime.edges e).2 ⟨he, hty⟩)
    · intro h e he
      have := (mem_relevantRelations anime.edges e).1 he
      exact h e this.1 this.2
  have hperm := sortByYear_perm (allAnime anime)
  have hcnt := allAnime_counts anime
  refine ⟨?_, ?_, ?_⟩
  · rw [← hnil]
    unfold buildTimeline
    simp only
    split
    · rename_i h
      simp [h, displayNoRelations]
    · rename_i h
      simp [h]
  · have hne : (∃ e ∈ anime.edges, e.relationType ∈
        ["SEQUEL", "PREQUEL", "SIDE_STORY", "ALTERNATIVE", "PARENT", "SPIN_OFF"]) ↔
        ¬ (relevantRelations anime.edges).length = 0 := by
      rw [hnil]
      push_neg
      rfl
    rw [hne]
    unfold buildTimeline
    simp only
    split
    · rename_i h
      simp [h, displayNoRelations]
    · rename_i h
      simp [h]
  · intro cards msg h
    obtain ⟨hc, hm, _⟩ := buildTimeline_cards anime cards msg h
    have hlen : cards.length = (relevantRelations anime.edges).length + 1 := by
      rw [hc, List.length_map, hperm.length_eq, hcnt.2.2]
    refine ⟨hc, hperm, ?_, ?_, ?_, hlen, hm, ?_⟩
    · rw [hperm.countP_eq, hcnt.1]
    · rw [hperm.countP_eq, hcnt.2.1]
    · rw [hc, List.countP_map]
      have : ((fun c : TimelineCard => c.current) ∘ createTimelineCard) =
          fun x : TimelineEntry => x.isCurrent := rfl
      rw [this, hperm.countP_eq, hcnt.1]
    · rw [hm, hlen, Nat.add_sub_cancel]

/-- C9 on a subject with one sequel: two cards, one of them current. -/
theorem buildTimeline_standalone_iff_witness :
    (buildTimeline farFutureSubject =
      .timeline [⟨false, none, "Unknown", "Unknown", some "Sequel", 2⟩,
        ⟨true, none, "10000", "Unknown", none, 1⟩] "Found 1 related anime in this series") ∧
    List.countP (fun c : TimelineCard => c.current)
      [⟨false, none, "Unknown", "Unknown", some "Sequel", 2⟩,
        ⟨true, none, "10000", "Unknown", none, 1⟩] = 1 :=
  ⟨by decide, ((buildTimeline_standalone_iff farFutureSubject).2.2
    [⟨false, none, "Unknown", "Unknown", some "Sequel", 2⟩,
      ⟨true, none, "10000", "Unknown", none, 1⟩] "Found 1 related anime in this series"
    (by decide)).2.2.2.2.1⟩

/-! ## Tag derivation (C10) -/

/-- The filter-then-map of the source computes `namesOfCategory`. -/
theorem filter_map_eq_namesOfCategory (category : String) (tags : List Tag) :
    ((tags.filter fun tag => tag.category = some category).map fun tag => tag.name) =
      namesOfCategory category tags := by
  induction tags with
  | nil => rfl
  | cons tag rest ih =>
    by_cases h : tag.category = some category
    · simp [namesOfCategory, h, List.filter_cons, ← ih]
    · simp [namesOfCategory, h, List.filter_cons, ← ih]

/-- The accumulator loop of `String.intercalate` as a left fold. -/
theorem intercalate_go_eq (acc : String) (l : List String) :
    String.intercalate.go acc ", " l = l.foldl (fun r x => r ++ ", " ++ x) acc := by
  induction l generalizing acc with
  | nil => rfl
  | cons x rest ih => simp [String.intercalate.go, ih]

/-- A prefix of the accumulator can be taken out of the fold. -/
theorem foldl_comma_append (a : String) (l : List String) (b : String) :
    l.foldl (fun r x => r ++ ", " ++ x) (a ++ b) = a ++ l.foldl (fun r x => r ++ ", " ++ x) b := by
  induction l generalizing b with
  | nil => rfl
  | cons x rest ih =>
    simp only [List.foldl_cons]
    rw [← ih]
    simp [String.append_assoc]

/-- Joining with `", "` by `String.intercalate` computes `joinComma`. -/
theorem intercalate_eq_joinComma (l : List String) : ", ".intercalate l = joinComma l := by
  cases l with
  | nil => rfl
  | cons x rest =>
    show String.intercalate.go x ", " rest = _
    rw [intercalate_go_eq]
    induction rest generalizing x with
    | nil => rfl
    | cons y rest ih =>
      simp only [List.foldl_cons, joinComma]
      rw [← ih y, String.append_assoc, foldl_comma_append, foldl_comma_append,
        String.append_assoc]

/-- C10: for every tag list, `extractThemes` returns the names of the tags of category
`Theme`, in tag order, limited to the first 5 and joined by `", "`, and `extractDemographics`
returns the names of all tags of category `Demographic`, in tag order, joined by `", "`; each
returns `"N/A"` when the tag list is absent, empty or without a tag of its category. The tags
`Isekai/Theme, Seinen/Demographic, Time Travel/Theme` give "Isekai, Time Travel" and
"Seinen"; of six themes the first five are kept. -/
theorem extract_tag_names (tags : Option (List Tag)) :
    extractThemes tags =
      (if namesOfCategory "Theme" (tags.getD []) = [] then "N/A"
        else joinComma ((namesOfCategory "Theme" (tags.getD [])).take 5)) ∧
    extractDemographics tags =
      (if namesOfCategory "Demographic" (tags.getD []) = [] then "N/A"
        else joinComma (namesOfCategory "Demographic" (tags.getD []))) ∧
    extractThemes none = "N/A" ∧ extractDemographics none = "N/A" ∧
    extractThemes (some []) = "N/A" ∧ extractDemographics (some []) = "N/A" ∧
    extractThemes (some sampleTags) = "Isekai, Time Travel" ∧
    extractDemographics (some sampleTags) = "Seinen" ∧
    extractThemes (some sixThemeTags) = "A, B, C, D, E" := by
  refine ⟨?_, ?_, rfl, rfl, rfl, rfl, by decide, by decide, by decide⟩
  · cases tags with
    | none => rfl
    | some tags =>
      cases tags with
      | nil => rfl
      | cons tag rest =>
        simp only [extractThemes, Option.getD_some, List.length_cons, Nat.add_one_ne_zero,
          if_false, intercalate_eq_joinComma]
        rw [← filter_map_eq_namesOfCategory]
        generalize List.filter (fun tag : Tag => decide (tag.category = some "Theme"))
          (tag :: rest) = kept
        cases kept with
        | nil => rfl
        | cons k ks => simp [List.map_take]
  · cases tags with
    | none => rfl
    | some tags =>
      cases tags with
      | nil => rfl
      | cons tag rest =>
        simp only [extractDemographics, Option.getD_some, List.length_cons,
          Nat.add_one_ne_zero, if_false, intercalate_eq_joinComma]
        rw [← filter_map_eq_namesOfCategory]
        generalize List.filter (fun tag : Tag => decide (tag.category = some "Demographic"))
          (tag :: rest) = kept
        cases kept with
        | nil => rfl
        | cons k ks => simp

/-! ## Description markup (C11) -/

/-- The replacement on the empty text. -/
theorem stripTags_nil : stripTags [] = [] := by
  rw [stripTags]

/-- A character other than `<` is kept. -/
theorem stripTags_cons_other (c : Char) (cs : List Char) (hc : c ≠ '<') :
    stripTags (c :: cs) = c :: stripTags cs := by
  rw [stripTags, if_neg hc]

/-- A `<` that no `>` follows is kept. -/
theorem stripTags_unclosed (cs : List Char) (h : '>' ∉ cs) :
    stripTags ('<' :: cs) = '<' :: stripTags cs := by
  have hd : cs.dropWhile (fun x => x != '>') = [] := by
    rw [List.dropWhile_eq_nil_iff]
    intro x hx
    simp only [bne_iff_ne, ne_eq]
    rintro rfl
    exact h hx
  rw [stripTags]
  simp [hd]

/-- A `<` is dropped together with everything up to and including the next `>`. -/
theorem stripTags_tag (body post : List Char) (h : '>' ∉ body) :
    stripTags ('<' :: (body ++ '>' :: post)) = stripTags post := by
  have hd : (body ++ '>' :: post).dropWhile (fun x => x != '>') = '>' :: post := by
    induction body with
    | nil => simp
    | cons b bs ih =>
      have hb : b ≠ '>' := fun hb => h (hb ▸ List.mem_cons_self _ _)
      have hbs : '>' ∉ bs := fun hm => h (List.mem_cons_of_mem _ hm)
      simp [List.dropWhile_cons, hb, ih hbs]
  rw [stripTags]
  simp [hd]

/-- A text that contains `>` splits at its first `>`. -/
theorem split_at_close (cs : List Char) (h : '>' ∈ cs) :
    ∃ body post, cs = body ++ '>' :: post ∧ '>' ∉ body := by
  induction cs with
  | nil => cases h
  | cons c cs ih =>
    by_cases hc : c = '>'
    · exact ⟨[], cs, by simp [hc], by simp⟩
    · have hm : '>' ∈ cs := by
        rcases List.mem_cons.1 h with h | h
        · exact absurd h.symm hc
        · exact h
      obtain ⟨body, post, h1, h2⟩ := ih hm
      refine ⟨c :: body, post, by simp [h1], ?_⟩
      intro hmem
      rcases List.mem_cons.1 hmem with h | h
      · exact hc h.symm
      · exact h2 h

/-- The result of the replacement is a sublist of the text and holds no tag. -/
theorem stripTags_props : ∀ (n : Nat) (text : List Char), text.length ≤ n →
    List.Sublist (stripTags text) text ∧ NoTag (stripTags text) := by
  intro n
  induction n with
  | zero =>
    intro text h
    have : text = [] := List.length_eq_zero.1 (by omega)
    subst this
    rw [stripTags_nil]
    refine ⟨List.Sublist.refl _, ?_⟩
    intro pre post h
    simp at h
  | succ n ih =>
    intro text h
    cases text with
    | nil =>
      rw [stripTags_nil]
      refine ⟨List.Sublist.refl _, ?_⟩
      intro pre post h
      simp at h
    | cons c cs =>
      have hcs : cs.length ≤ n := by simp only [List.length_cons] at h; omega
      have keep : ∀ (hk : stripTags (c :: cs) = c :: stripTags cs)
          (hfirst : c = '<' → '>' ∉ cs),
          List.Sublist (stripTags (c :: cs)) (c :: cs) ∧ NoTag (stripTags (c :: cs)) := by
        intro hk hfirst
        rw [hk]
        refine ⟨(ih cs hcs).1.cons₂ c, ?_⟩
        intro pre post hp
        cases pre with
        | nil =>
          simp only [List.nil_append, List.cons.injEq] at hp
          rw [← hp.2]
          exact fun hm => hfirst hp.1 ((ih cs hcs).1.subset hm)
        | cons p pre =>
          simp only [List.cons_append, List.cons.injEq] at hp
          exact (ih cs hcs).2 pre post hp.2
      by_cases hc : c = '<'
      · subst hc
        by_cases hclose : '>' ∈ cs
        · obtain ⟨body, post, h1, h2⟩ := split_at_close cs hclose
          subst h1
          rw [stripTags_tag body post h2]
          have hpost : post.length ≤ n := by
            simp only [List.length_append, List.length_cons] at hcs
            omega
          refine ⟨?_, (ih post hpost).2⟩
          exact (ih post hpost).1.trans
            ((List.sublist_cons_self _ _).trans
              ((List.sublist_append_right _ _).trans (List.sublist_cons_self _ _)))
        · exact keep (stripTags_unclosed cs hclose) (fun _ => hclose)
      · exact keep (stripTags_cons_other c cs hc) (fun h => absurd h hc)

/-- A text that holds no tag is left unchanged. -/
theorem stripTags_of_noTag : ∀ (text : List Char), NoTag text → stripTags text = text := by
  intro text
  induction text with
  | nil => intro _; exact stripTags_nil
  | cons c cs ih =>
    intro h
    have hcs : NoTag cs := fun pre post hp => h (c :: pre) post (by simp [hp])
    by_cases hc : c = '<'
    · subst hc
      rw [stripTags_unclosed cs (h [] cs rfl), ih hcs]
    · rw [stripTags_cons_other c cs hc, ih hcs]

/-- A text without `<` is kept and the replacement goes on behind it. -/
theorem stripTags_text (pre rest : List Char) (h : '<' ∉ pre) :
    stripTags (pre ++ rest) = pre ++ stripTags rest := by
  induction pre with
  | nil => rfl
  | cons c cs ih =>
    have hc : c ≠ '<' := fun hc => h (hc ▸ List.mem_cons_self _ _)
    have hcs : '<' ∉ cs := fun hm => h (List.mem_cons_of_mem _ hm)
    rw [List.cons_append, stripTags_cons_other c _ hc, ih hcs, List.cons_append]

/-- The plot text displayed for a non-empty description. -/
theorem displayAnime_plot (anime : Anime) (d : String) (hd : anime.description = some d)
    (hne : d ≠ "") : (displayAnime anime).plot = String.mk (stripTags d.data) := by
  simp [displayAnime, hd, hne]

/-- The plot text of the example of the specification. -/
theorem taggedAnime_plot : (displayAnime taggedAnime).plot = "Great show" := by
  simp [displayAnime, taggedAnime, sampleAnime, stripTags]

/-- C11: for every non-empty description `d`, the plot text displayed by `displayAnime` is `d`
after the replacement of `/<[^>]*>/g` by the empty string. Its characters are characters of `d`
in their order; it contains no `<` that is followed anywhere later by a `>`; replacing again
leaves it unchanged. The replacement keeps a text without `<` and goes on behind it, drops a `<`
together with everything up to and including the next `>`, and keeps a `<` that no `>`
follows. The description `<p>Great <b>show</b></p>` is displayed as `Great show`. -/
theorem description_tags_stripped (anime : Anime) (d : String)
    (hd : anime.description = some d) (hne : d ≠ "") :
    (displayAnime anime).plot.data = stripTags d.data ∧
    List.Sublist (displayAnime anime).plot.data d.data ∧
    NoTag (displayAnime anime).plot.data ∧
    stripTags (displayAnime anime).plot.data = (displayAnime anime).plot.data ∧
    (∀ pre rest : List Char, '<' ∉ pre → stripTags (pre ++ rest) = pre ++ stripTags rest) ∧
    (∀ body post : List Char, '>' ∉ body →
      stripTags ('<' :: (body ++ '>' :: post)) = stripTags post) ∧
    (∀ rest : List Char, '>' ∉ rest → stripTags ('<' :: rest) = '<' :: stripTags rest) ∧
    (displayAnime taggedAnime).plot = "Great show" := by
  have hplot : (displayAnime anime).plot.data = stripTags d.data := by
    rw [displayAnime_plot anime d hd hne]
  have hp := stripTags_props d.data.length d.data (le_refl _)
  rw [hplot]
  exact ⟨rfl, hp.1, hp.2, stripTags_of_noTag _ hp.2, stripTags_text, stripTags_tag,
    stripTags_unclosed, taggedAnime_plot⟩

/-- C11 for the description `<p>Great <b>show</b></p>`. -/
theorem description_tags_stripped_witness :
    (taggedAnime.description = some "<p>Great <b>show</b></p>" ∧
      "<p>Great <b>show</b></p>" ≠ "") ∧
    stripTags (displayAnime taggedAnime).plot.data = (displayAnime taggedAnime).plot.data :=
  ⟨⟨rfl, by decide⟩,
    (description_tags_stripped taggedAnime "<p>Great <b>show</b></p>" rfl (by decide)).2.2.2.1⟩

/-! ## Reported errors (C12) -/

/-- An attempt whose count probe is answered with a truthy `errors` throws the error built from
it, after that one call. -/
theorem tryBody_probeErrors (w : World) (s e : Int) (t : Trace) (body : ResponseBody)
    (errors : List String)
    (hg : w.gateway t.calls (requestVariables s e 1) = .json body)
    (he : body.errors = some errors) :
    tryBody w s e t = (.threw (apiError errors), t.send (requestVariables s e 1)) := by
  unfold tryBody
  simp [hg, he]

/-- An attempt whose probe reports a non-zero total and whose page fetch is answered with a truthy
`errors` throws the error built from it, after two calls and one draw. -/
theorem tryBody_pageErrors (w : World) (s e : Int) (t : Trace) (n : Int) (body2 : ResponseBody)
    (errors : List String)
    (h : probeTotal (w.gateway t.calls (requestVariables s e 1)) = some n) (hn : n ≠ 0)
    (hg2 : ∀ v, w.gateway (t.calls + 1) v = .json body2)
    (he2 : body2.errors = some errors) :
    ∃ p, tryBody w s e t = (.threw (apiError errors),
      ⟨t.requests ++ [requestVariables s e 1, requestVariables s e p], t.draws + 1,
        t.outcomes⟩) := by
  unfold tryBody
  simp only
  cases hg : w.gateway t.calls (requestVariables s e 1) with
  | rejected err => simp [hg, probeTotal] at h
  | json body =>
    rw [hg] at h
    simp only [probeTotal] at h
    cases he : body.errors with
    | some errs => simp [he] at h
    | none =>
      simp only [he] at h
      cases hp : body.data.bind Data.Page with
      | none => simp [hp] at h
      | some page =>
        simp only [hp, Option.some_bind] at h
        cases hi : page.pageInfo with
        | none => simp [hi] at h
        | some info =>
          simp only [hi, Option.map_some', Option.some.injEq] at h
          have hne : ¬ info.total = 0 := by rw [h]; exact hn
          simp only [he, hp, hi, hne, if_false]
          refine ⟨randomPage (w.random t.draws).val info.lastPage, ?_⟩
          have hc : (t.send (requestVariables s e 1)).draw.calls = t.calls + 1 := by
            simp [Trace.send, Trace.draw, Trace.calls]
          rw [hc, hg2]
          simp [he2, Trace.send, Trace.draw]

/-- A relations response with a truthy `errors` makes `fetchAnimeTimeline` throw its fixed
error. -/
theorem fetchAnimeTimeline_errors (gateway : Option Int → RelationsOutcome) (animeId : String)
    (body : RelationsBody) (errors : List String)
    (hg : gateway (parseInt animeId) = .json body) (he : body.errors = some errors) :
    fetchAnimeTimeline gateway animeId = .error ⟨"Failed to fetch anime timeline", none⟩ := by
  unfold fetchAnimeTimeline
  simp [hg, he]

/-- C12 (as amended): for the sampling query of `fetchRandomAnime`, a response of the count probe
or of the page fetch whose `errors` array is non-empty makes the attempt fail by a throw, and
the error thrown has the message "API Error: " followed by the message of the first reported
error. For the relations query of `fetchAnimeTimeline`, a response whose `errors` array is
non-empty makes the call fail, and the error thrown has the fixed message
"Failed to fetch anime timeline", whatever the reported messages are. -/
theorem errors_array_fails_request (first : String) (rest : List String) :
    (∀ (w : World) (s e : Int) (t : Trace) (body : ResponseBody),
      w.gateway t.calls (requestVariables s e 1) = .json body →
      body.errors = some (first :: rest) →
      tryBody w s e t =
        (.threw ⟨"API Error: " ++ first, none⟩, t.send (requestVariables s e 1))) ∧
    (∀ (w : World) (s e : Int) (t : Trace) (n : Int) (body : ResponseBody),
      probeTotal (w.gateway t.calls (requestVariables s e 1)) = some n → n ≠ 0 →
      (∀ v, w.gateway (t.calls + 1) v = .json body) →
      body.errors = some (first :: rest) →
      ∃ p, tryBody w s e t = (.threw ⟨"API Error: " ++ first, none⟩,
        ⟨t.requests ++ [requestVariables s e 1, requestVariables s e p], t.draws + 1,
          t.outcomes⟩)) ∧
    (∀ (gateway : Option Int → RelationsOutcome) (animeId : String) (body : RelationsBody),
      gateway (parseInt animeId) = .json body →
      body.errors = some (first :: rest) →
      fetchAnimeTimeline gateway animeId = .error ⟨"Failed to fetch anime timeline", none⟩) ∧
    List.IsInfix first.data ("API Error: " ++ first).data :=
  ⟨fun w s e t body hg he => tryBody_probeErrors w s e t body (first :: rest) hg he,
    fun w s e t n body h hn hg he => tryBody_pageErrors w s e t n body (first :: rest) h hn hg he,
    fun gateway animeId body hg he => fetchAnimeTimeline_errors gateway animeId body _ hg he,
    ⟨"API Error: ".data, [], by simp⟩⟩

/-- The amended C12 at gateways answering "Too Many Requests." and "Not Found.". -/
theorem errors_array_fails_request_witness :
    (tryBody rateLimitedWorld 1990 1999 Trace.init).1 =
      .threw ⟨"API Error: Too Many Requests.", none⟩ ∧
    (∃ p, (tryBody rateLimitedPageWorld 1990 1999 Trace.init).1 =
      .threw ⟨"API Error: Too Many Requests.", none⟩ ∧
      (tryBody rateLimitedPageWorld 1990 1999 Trace.init).2.requests =
        [requestVariables 1990 1999 1, requestVariables 1990 1999 p]) ∧
    fetchAnimeTimeline notFoundGateway "1" = .error ⟨"Failed to fetch anime timeline", none⟩ :=
  ⟨congrArg Prod.fst ((errors_array_fails_request "Too Many Requests." []).1 rateLimitedWorld
      1990 1999 Trace.init ⟨some ["Too Many Requests."], none⟩ rfl rfl),
    let ⟨p, hp⟩ := (errors_array_fails_request "Too Many Requests." []).2.1 rateLimitedPageWorld
      1990 1999 Trace.init 1 ⟨some ["Too Many Requests."], none⟩ rfl (by decide)
      (fun _ => rfl) rfl
    ⟨p, congrArg Prod.fst hp, congrArg (fun r => r.2.requests) hp⟩,
    (errors_array_fails_request "Not Found." []).2.2.1 notFoundGateway "1"
      ⟨some ["Not Found."], none⟩ rfl rfl⟩

/-- C12, counterexample: the relations query answered with the single error "Not Found." makes
`fetchAnimeTimeline` throw an error whose message is "Failed to fetch anime timeline"; the
reported message does not occur in it, and the error wraps nothing. -/
theorem timeline_error_message_dropped :
    notFoundGateway (parseInt "1") = .json ⟨some ["Not Found."], none⟩ ∧
    fetchAnimeTimeline notFoundGateway "1" = .error ⟨"Failed to fetch anime timeline", none⟩ ∧
    ¬ List.IsInfix "Not Found.".data "Failed to fetch anime timeline".data := by
  refine ⟨rfl, rfl, by decide⟩

end AnimePicker
